import Mathlib

/-!
Shallow embedding of the metadata-extraction engine of the
meta-data-extractor repository (src/utils/metadataExtractor.ts),
together with proofs about the embedded definitions.

Modelling conventions:
* JS byte buffers (ArrayBuffer / Uint8Array contents) are lists of
  natural numbers; every byte produced by the platform is < 256.
* JS floating-point arithmetic on money-free quantities is modelled
  over the rationals, and the entropy computation (which uses
  Math.log2) over the reals.
* Browser / library effects (image decoding, media decoding, the
  exif-js library, canvas pixel access, crypto.subtle digests,
  TextDecoder) are external collaborators of the repository code;
  their outcomes are inputs to the embedding, collected in an
  Effects record.  The repository's own logic (all conditionals,
  assignments, loops and arithmetic) is translated from the source.
-/

namespace MetaX

/-- Byte buffers: contents of a JS ArrayBuffer / Uint8Array. -/
abbrev Bytes := List Nat

/-- JS Math.round over the rationals: round half toward positive infinity. -/
def roundQ (q : ℚ) : ℤ := ⌊q + 1/2⌋

/-- Rounding to two decimal places as done throughout the source:
Math.round(x * 100) / 100, over the rationals. -/
def round2Q (q : ℚ) : ℚ := (roundQ (q * 100) : ℚ) / 100

/-- JS Math.round over the reals (used by the entropy computation). -/
noncomputable def roundR (x : ℝ) : ℤ := ⌊x + 1/2⌋

/-- Rounding to two decimal places over the reals:
Math.round(x * 100) / 100. -/
noncomputable def round2R (x : ℝ) : ℝ := (roundR (x * 100) : ℝ) / 100

/-- The recursive gcd helper inside MetadataExtractor.calculateAspectRatio
(line 292): gcd(a, b) = b === 0 ? a : gcd(b, a % b).  Lean accepts the
recursion because the second argument a % b strictly decreases. -/
def gcdJS : Nat → Nat → Nat
  | a, 0 => a
  | a, b + 1 => gcdJS (b + 1) (a % (b + 1))
termination_by _ b => b
decreasing_by exact Nat.mod_lt _ (Nat.succ_pos _)

/-- The source's recursive gcd agrees with the mathematical gcd. -/
theorem gcdJS_eq_gcd : ∀ a b : Nat, gcdJS a b = Nat.gcd a b := by
  intro a b
  induction b using Nat.strong_induction_on generalizing a with
  | _ b ih =>
    match b with
    | 0 => simp [gcdJS]
    | b' + 1 =>
      rw [gcdJS, ih _ (Nat.mod_lt _ (Nat.succ_pos b')), Nat.gcd_comm,
        ← Nat.gcd_rec, Nat.gcd_comm]

/-- MetadataExtractor.calculateAspectRatio (lines 291-295):
divide width and height by their recursive gcd and render "W:H". -/
def calculateAspectRatio (width height : Nat) : String :=
  let divisor := gcdJS width height
  toString (width / divisor) ++ ":" ++ toString (height / divisor)

/-- JS String.prototype.startsWith. -/
def strStartsWith (s pre : String) : Bool := pre.data.isPrefixOf s.data

/-- JS String.prototype.endsWith. -/
def strEndsWith (s suf : String) : Bool := suf.data.isSuffixOf s.data

/-- JS String.prototype.includes on lists of characters. -/
def listIncludes (needle : List Char) : List Char → Bool
  | [] => needle.isEmpty
  | c :: rest => needle.isPrefixOf (c :: rest) || listIncludes needle rest

/-- JS String.prototype.includes. -/
def strIncludes (s sub : String) : Bool := listIncludes sub.data s.data

/-- JS String.prototype.split with a single-character separator, on lists
of characters (acc holds the current piece, reversed). -/
def splitCharAux (sep : Char) : List Char → List Char → List (List Char)
  | acc, [] => [acc.reverse]
  | acc, c :: rest =>
    if c == sep then acc.reverse :: splitCharAux sep [] rest
    else splitCharAux sep (c :: acc) rest

/-- JS String.prototype.toLowerCase (ASCII letters; characters outside
the ASCII range are kept, which is all the proofs below depend on). -/
def strToLower (s : String) : String := String.mk (s.data.map Char.toLower)

/-- MetadataExtractor.getFileExtension (lines 102-104):
filename.split('.').pop()?.toLowerCase() || ''. -/
def getFileExtension (filename : String) : String :=
  String.mk (((splitCharAux '.' [] filename.data).getLastD []).map Char.toLower)

/-- The five format-specific extractor variants of the engine. -/
inductive FormatKind
  | image
  | media
  | document
  | text
  | archive
deriving DecidableEq

/-- The format-dispatch ladder of MetadataExtractor.extractMetadata
(lines 76-86), as a classifier from declared MIME type and filename to
the extractor variant that runs (none: no format-specific extractor). -/
def classifyFormat (type name : String) : Option FormatKind :=
  if strStartsWith type "image/" then some .image
  else if strStartsWith type "video/" || strStartsWith type "audio/" then some .media
  else if type = "application/pdf" then some .document
  else if strIncludes type "text/" || strEndsWith name ".txt" || strEndsWith name ".md" then
    some .text
  else if strIncludes type "zip" || strIncludes type "archive" ||
      strEndsWith name ".zip" || strEndsWith name ".rar" then
    some .archive
  else none

/-- The classifier exactly as claim C4 words it: in particular, a PDF MIME
type OR a .pdf filename extension is said to select the DocumentExtractor,
and the text branch is keyed on a text MIME prefix.  Written from the
claim, to be compared with classifyFormat, which is written from the
source. -/
def classifyClaimC4 (type name : String) : Option FormatKind :=
  if strStartsWith type "image/" then some .image
  else if strStartsWith type "video/" || strStartsWith type "audio/" then some .media
  else if type = "application/pdf" || strEndsWith name ".pdf" then some .document
  else if strStartsWith type "text/" || strEndsWith name ".txt" || strEndsWith name ".md" then
    some .text
  else if strIncludes type "zip" || strIncludes type "archive" ||
      strEndsWith name ".zip" || strEndsWith name ".rar" then
    some .archive
  else none

/-- One rule of the amended deterministic dispatch: a predicate over the
declared MIME type and filename, and the extractor it selects. -/
structure DispatchRule where
  applies : String → String → Bool
  target : FormatKind

/-- The amended dispatch priority list, written from the amended claim:
image MIME prefix; else audio/video MIME prefix; else a MIME type equal
to application/pdf (the filename extension is not consulted for PDF);
else a MIME type containing "text/" or a .txt/.md extension; else a MIME
type containing "zip" or "archive" or a .zip/.rar extension. -/
def dispatchRules : List DispatchRule :=
  [⟨fun type _ => strStartsWith type "image/", .image⟩,
   ⟨fun type _ => strStartsWith type "video/" || strStartsWith type "audio/", .media⟩,
   ⟨fun type _ => type = "application/pdf", .document⟩,
   ⟨fun type name =>
      strIncludes type "text/" || strEndsWith name ".txt" || strEndsWith name ".md", .text⟩,
   ⟨fun type name =>
      strIncludes type "zip" || strIncludes type "archive" ||
        strEndsWith name ".zip" || strEndsWith name ".rar", .archive⟩]

/-- First dispatch rule that applies decides the extractor variant. -/
def classifyAmendedSpec (type name : String) : Option FormatKind :=
  (dispatchRules.find? (fun r => r.applies type name)).map DispatchRule.target

/-- C7: for every pair of positive pixel dimensions the aspect ratio is
width:height reduced by their greatest common divisor, rendered as
"W:H"; in particular 1920 by 1080 gives "16:9" and 1 by 1 gives "1:1". -/
theorem C7_aspect_ratio_reduced :
    (∀ w h : Nat, 0 < w → 0 < h →
      calculateAspectRatio w h =
        toString (w / Nat.gcd w h) ++ ":" ++ toString (h / Nat.gcd w h)) ∧
    calculateAspectRatio 1920 1080 = "16:9" ∧
    calculateAspectRatio 1 1 = "1:1" := by
  refine ⟨fun w h _ _ => by simp [calculateAspectRatio, gcdJS_eq_gcd], ?_, ?_⟩
  · have h1 : gcdJS 1920 1080 = 120 := by rw [gcdJS_eq_gcd]; norm_num
    simp only [calculateAspectRatio, h1]
    norm_num
    rfl
  · have h1 : gcdJS 1 1 = 1 := by rw [gcdJS_eq_gcd, Nat.gcd_self]
    simp only [calculateAspectRatio, h1]
    norm_num
    rfl

/-- Witness for C7 at the concrete input 1920 by 1080. -/
theorem C7_aspect_ratio_reduced_witness :
    0 < 1920 ∧ 0 < 1080 ∧
      calculateAspectRatio 1920 1080 =
        toString (1920 / Nat.gcd 1920 1080) ++ ":" ++ toString (1080 / Nat.gcd 1920 1080) :=
  ⟨by decide, by decide, C7_aspect_ratio_reduced.1 1920 1080 (by decide) (by decide)⟩

/-- C10: the recursive gcd of calculateAspectRatio is total (Lean accepts
its definition because the second argument strictly decreases), and when
at least one of width or height is positive the divisor is positive, so
the two divisions in the rendered ratio are never divisions by zero. -/
theorem C10_gcd_total_positive_divisor :
    ∀ w h : Nat, 0 < w ∨ 0 < h → 0 < gcdJS w h := by
  intro w h hwh
  rw [gcdJS_eq_gcd]
  rcases hwh with hw | hh
  · exact Nat.gcd_pos_of_pos_left h hw
  · exact Nat.gcd_pos_of_pos_right w hh

/-- Witness for C10 at the concrete input 1920 by 1080. -/
theorem C10_gcd_total_positive_divisor_witness :
    (0 < 1920 ∨ 0 < 1080) ∧ 0 < gcdJS 1920 1080 :=
  ⟨Or.inl (by decide), C10_gcd_total_positive_divisor 1920 1080 (Or.inl (by decide))⟩

/-- C4 counterexample: a file named "doc.pdf" with an empty declared MIME
type is dispatched to no extractor by the source's classifier, while the
claim's priority order sends it to the DocumentExtractor: the source
never consults the .pdf filename extension. -/
theorem C4_classifier_counterexample :
    classifyFormat "" "doc.pdf" = none ∧
      classifyClaimC4 "" "doc.pdf" = some FormatKind.document ∧
      classifyFormat "" "doc.pdf" ≠ classifyClaimC4 "" "doc.pdf" := by
  refine ⟨by decide, by decide, by decide⟩

/-- C4 amended: classification is deterministic and follows the priority
order over the declared MIME type and filename given by dispatchRules:
image MIME prefix, else audio/video MIME prefix, else MIME type exactly
application/pdf, else MIME containing "text/" or a .txt/.md extension,
else MIME containing "zip" or "archive" or a .zip/.rar extension, else
no format-specific extractor. -/
theorem C4_classifier_amended :
    ∀ type name : String, classifyFormat type name = classifyAmendedSpec type name := by
  intro type name
  simp only [classifyFormat, classifyAmendedSpec, dispatchRules, List.find?]
  rcases h1 : strStartsWith type "image/" <;>
    rcases h2 : strStartsWith type "video/" || strStartsWith type "audio/" <;>
    rcases h3 : decide (type = "application/pdf") <;>
    rcases h4 : strIncludes type "text/" || strEndsWith name ".txt" || strEndsWith name ".md" <;>
    rcases h5 : strIncludes type "zip" || strIncludes type "archive" ||
      strEndsWith name ".zip" || strEndsWith name ".rar" <;>
    simp_all

/-- Entropy body of MetadataExtractor.calculateEntropy (lines 374-399)
over a byte sample: the 256-bucket frequency histogram is folded over
exactly as the source's for-loop over the frequency array does,
subtracting probability * Math.log2(probability) for each non-zero
bucket, and the result is rounded to two decimal places. -/
noncomputable def entropyOfSample (sample : Bytes) : ℝ :=
  let length := sample.length
  let e : ℝ := (List.range 256).foldl
    (fun acc b =>
      let freq := sample.count b
      if 0 < freq then
        acc - ((freq : ℝ) / (length : ℝ)) * Real.logb 2 ((freq : ℝ) / (length : ℝ))
      else acc) 0
  round2R e

/-- MetadataExtractor.calculateEntropy on a readable file: the sample is
file.slice(0, Math.min(file.size, 1024 * 1024)), the first MiB. -/
noncomputable def calculateEntropyBytes (size : Nat) (bytes : Bytes) : ℝ :=
  entropyOfSample (bytes.take (min size (1024 * 1024)))

/-- Shannon entropy as the spec words it: for each non-zero bucket of the
256-bucket byte-frequency histogram with probability p = count divided by
sample length, accumulate -p * log2 p; round to 2 decimal places. -/
noncomputable def entropySpec (sample : Bytes) : ℝ :=
  round2R (- ∑ b ∈ Finset.range 256,
    (if 0 < sample.count b then
      ((sample.count b : ℝ) / (sample.length : ℝ)) *
        Real.logb 2 ((sample.count b : ℝ) / (sample.length : ℝ))
    else 0))

/-- Folding subtraction of g over a list starting from c subtracts the
sum of g. -/
theorem foldl_sub_eq (g : ℕ → ℝ) :
    ∀ (l : List ℕ) (c : ℝ), l.foldl (fun acc b => acc - g b) c = c - (l.map g).sum := by
  intro l
  induction l with
  | nil => simp
  | cons a l ih => intro c; simp [ih]; ring

/-- Sum of g over List.range n equals the Finset.range n sum. -/
theorem listRange_map_sum (g : ℕ → ℝ) :
    ∀ n : Nat, ((List.range n).map g).sum = ∑ b ∈ Finset.range n, g b := by
  intro n
  induction n with
  | zero => simp
  | succ n ih => rw [List.range_succ, Finset.sum_range_succ, ← ih]; simp

/-- Rounding zero to two decimals yields zero. -/
theorem round2R_zero : round2R 0 = 0 := by
  have h : (0 : ℝ) * 100 + 1 / 2 = 1 / 2 := by ring
  rw [round2R, roundR, h]
  norm_num

/-- C5: the entropy is computed over a prefix of at most 1 MiB of the
buffer as the Shannon entropy of the 256-bucket byte-frequency histogram
rounded to 2 decimal places; an all-zero buffer of any length yields
exactly 0, and the empty buffer yields 0. -/
theorem C5_entropy_shannon :
    (∀ (size : Nat) (bytes : Bytes),
      calculateEntropyBytes size bytes = entropySpec (bytes.take (min size (1024 * 1024)))) ∧
    (∀ n : Nat, calculateEntropyBytes n (List.replicate n 0) = 0) ∧
    calculateEntropyBytes 0 [] = 0 := by
  have hfold : ∀ sample : Bytes, entropyOfSample sample = entropySpec sample := by
    intro sample
    have hstep :
        (fun (acc : ℝ) (b : ℕ) =>
          if 0 < sample.count b then
            acc - ((sample.count b : ℝ) / (sample.length : ℝ)) *
              Real.logb 2 ((sample.count b : ℝ) / (sample.length : ℝ))
          else acc) =
        (fun (acc : ℝ) (b : ℕ) =>
          acc - if 0 < sample.count b then
            ((sample.count b : ℝ) / (sample.length : ℝ)) *
              Real.logb 2 ((sample.count b : ℝ) / (sample.length : ℝ))
          else 0) := by
      funext acc b
      by_cases h : 0 < sample.count b <;> simp [h]
    rw [entropyOfSample, entropySpec]
    simp only [hstep]
    rw [foldl_sub_eq, listRange_map_sum]
    norm_num
  have hzero : ∀ m : Nat, entropyOfSample (List.replicate m 0) = 0 := by
    intro m
    rw [hfold, entropySpec]
    have hS : ∀ S : ℝ, S = 0 → round2R (-S) = 0 := by
      intro S h
      rw [h, neg_zero, round2R_zero]
    apply hS
    apply Finset.sum_eq_zero
    intro b _
    simp only [List.length_replicate]
    by_cases hb : b = 0
    · subst hb
      have hc : (List.replicate m (0 : ℕ)).count 0 = m := by
        simp [List.count_replicate]
      rw [hc]
      rcases Nat.eq_zero_or_pos m with hm | hm
      · simp [hm]
      · have hmne : (m : ℝ) ≠ 0 := Nat.cast_ne_zero.mpr hm.ne'
        rw [if_pos hm, div_self hmne, Real.logb_one, mul_zero]
    · have hc : (List.replicate m (0 : ℕ)).count b = 0 := by
        simp only [List.count_replicate, beq_iff_eq, ite_eq_right_iff]
        intro h
        exact absurd h.symm hb
      rw [hc]
      simp
  refine ⟨fun size bytes => hfold _, fun n => ?_, ?_⟩
  · rw [calculateEntropyBytes, List.take_replicate]
    exact hzero _
  · rw [calculateEntropyBytes]
    simpa using hzero 0

/-- One hexadecimal digit, lowercase, as JS Number.prototype.toString(16)
renders it. -/
def hexDigit (n : Nat) : Char :=
  if n < 10 then Char.ofNat (48 + n) else Char.ofNat (87 + n)

/-- One hexadecimal digit, uppercase (after toUpperCase). -/
def hexDigitUpper (n : Nat) : Char :=
  if n < 10 then Char.ofNat (48 + n) else Char.ofNat (55 + n)

/-- byte.toString(16).padStart(2, '0') for a byte value (< 256):
two lowercase hexadecimal digits. -/
def byteToHexLower (b : Nat) : String :=
  if b < 16 then String.mk ['0', hexDigit b]
  else String.mk [hexDigit (b / 16), hexDigit (b % 16)]

/-- One byte rendered as two uppercase hexadecimal digits (the signature
path applies toUpperCase after joining). -/
def byteToHexUpper (b : Nat) : String :=
  if b < 16 then String.mk ['0', hexDigitUpper b]
  else String.mk [hexDigitUpper (b / 16), hexDigitUpper (b % 16)]

/-- hashArray.map(b => b.toString(16).padStart(2, '0')).join('') of
MetadataExtractor.calculateChecksum (line 367): joining with the empty
separator concatenates the two-digit renderings. -/
def bytesToHexLower : Bytes → String
  | [] => ""
  | b :: rest => byteToHexLower b ++ bytesToHexLower rest

/-- MetadataExtractor.calculateChecksum (lines 354-372).  The external
crypto.subtle.digest primitive is the digest parameter, mapping the
algorithm label actually passed to it and the buffer to digest bytes;
readOk and digestOk say whether the buffer read and the digest promise
succeed.  On either failure the catch branch returns the empty string.
For the label "MD5" the source calls the digest with "SHA-1" instead
(line 361, "Fallback to SHA-1"). -/
def calculateChecksum (digest : String → Bytes → Bytes) (readOk digestOk : Bool)
    (algorithm : String) (bytes : Bytes) : String :=
  if readOk && digestOk then
    bytesToHexLower (digest (if algorithm = "MD5" then "SHA-1" else algorithm) bytes)
  else ""

/-- The algorithm label the source hands to crypto.subtle.digest for a
requested checksum algorithm (the dispatch of lines 359-364). -/
def hashAlgorithmUsed (algorithm : String) : String :=
  if algorithm = "MD5" then "SHA-1" else algorithm

/-- Membership of a character in the JS regular-expression class \s
(ECMAScript WhiteSpace plus LineTerminator code points). -/
def jsWhitespaceChar (c : Char) : Bool :=
  ([9, 10, 11, 12, 13, 32, 160, 0x1680, 0x2000, 0x2001, 0x2002, 0x2003, 0x2004,
    0x2005, 0x2006, 0x2007, 0x2008, 0x2009, 0x200a, 0x2028, 0x2029, 0x202f,
    0x205f, 0x3000, 0xfeff] : List Nat).contains c.toNat

/-- text.replace(/\s+/g, ' '): collapse every maximal run of whitespace
to one space.  The flag records whether the previous character was part
of a whitespace run. -/
def collapseWsAux : Bool → List Char → List Char
  | _, [] => []
  | prevWs, c :: rest =>
    if jsWhitespaceChar c then
      if prevWs then collapseWsAux true rest
      else ' ' :: collapseWsAux true rest
    else c :: collapseWsAux false rest

/-- text.replace(/\s+/g, ' '). -/
def collapseWs (l : List Char) : List Char := collapseWsAux false l

/-- text.split(/\s+/).filter(word => word.length > 0).length: the number
of maximal runs of non-whitespace characters.  The flag records whether
the scan is inside such a run. -/
def countWordsAux : Bool → List Char → Nat
  | _, [] => 0
  | inWord, c :: rest =>
    if jsWhitespaceChar c then countWordsAux false rest
    else (if inWord then 0 else 1) + countWordsAux true rest

/-- Whitespace-delimited word count with empty tokens excluded, shared by
the text extractor (line 250) and the PDF extractor (line 237). -/
def countWords (l : List Char) : Nat := countWordsAux false l

/-- JS String.prototype.trim on a list of characters. -/
def trimJS (l : List Char) : List Char :=
  ((l.dropWhile jsWhitespaceChar).reverse.dropWhile jsWhitespaceChar).reverse

/-- TextDecoder('latin1'): each byte decodes to the code point of its own
value. -/
def decodeLatin1 (bytes : Bytes) : List Char := bytes.map Char.ofNat

/-- Match of the regex /\/Info\s*<<([^>]*)>>/ anchored at the current
position; yields the captured group. -/
def matchInfoAt (l : List Char) : Option (List Char) :=
  if ("/Info".data).isPrefixOf l then
    let rest := (l.drop 5).dropWhile jsWhitespaceChar
    if ("<<".data).isPrefixOf rest then
      let body := rest.drop 2
      let cap := body.takeWhile (· != '>')
      if (">>".data).isPrefixOf (body.drop cap.length) then some cap else none
    else none
  else none

/-- text.match(/\/Info\s*<<([^>]*)>>/): leftmost match, captured group. -/
def findInfoBlock : List Char → Option (List Char)
  | [] => none
  | c :: rest =>
    match matchInfoAt (c :: rest) with
    | some cap => some cap
    | none => findInfoBlock rest

/-- Match of a regex of the shape /KEY\s*\(([^)]*)\)/ anchored at the
current position (KEY is /Title, /Author or /Keywords); yields the
captured group. -/
def matchKeyParenAt (key : List Char) (l : List Char) : Option (List Char) :=
  if key.isPrefixOf l then
    let rest := (l.drop key.length).dropWhile jsWhitespaceChar
    if ("(".data).isPrefixOf rest then
      let body := rest.drop 1
      let cap := body.takeWhile (· != ')')
      if (")".data).isPrefixOf (body.drop cap.length) then some cap else none
    else none
  else none

/-- info.match(/KEY\s*\(([^)]*)\)/): leftmost match, captured group. -/
def findKeyParen (key : List Char) : List Char → Option (List Char)
  | [] => none
  | c :: rest =>
    match matchKeyParenAt key (c :: rest) with
    | some cap => some cap
    | none => findKeyParen key rest

/-- Match of /\/Type\s*\/Page[^s]/ anchored at the current position;
yields the length of the whole match. -/
def matchTypePageAt (l : List Char) : Option Nat :=
  if ("/Type".data).isPrefixOf l then
    let ws := ((l.drop 5).takeWhile jsWhitespaceChar).length
    let rest := l.drop (5 + ws)
    if ("/Page".data).isPrefixOf rest then
      match rest.drop 5 with
      | [] => none
      | c :: _ => if c != 's' then some (5 + ws + 5 + 1) else none
    else none
  else none

/-- text.match(/\/Type\s*\/Page[^s]/g).length: the number of
non-overlapping matches, scanning left to right (fuel bounds the scan;
every step consumes at least one character, so fuel = text length is
enough). -/
def countTypePage : Nat → List Char → Nat
  | 0, _ => 0
  | _, [] => 0
  | fuel + 1, c :: rest =>
    match matchTypePageAt (c :: rest) with
    | some k => 1 + countTypePage fuel ((c :: rest).drop k)
    | none => countTypePage fuel rest

/-- textContent of MetadataExtractor.extractPDFMetadata (line 236):
strip every character outside printable ASCII to a space, then collapse
whitespace runs. -/
def pdfTextContent (text : List Char) : List Char :=
  collapseWs (text.map fun c => if 0x20 ≤ c.toNat && c.toNat ≤ 0x7E then c else ' ')

/-- MetadataExtractor.detectEncoding (lines 459-468). -/
def detectEncoding (text : List Char) : String :=
  if text.contains (Char.ofNat 0xFFFD) then "Binary/Unknown"
  else if text.any (fun c => 0x80 ≤ c.toNat && c.toNat ≤ 0xFFFF) then "UTF-8"
  else if text.all (fun c => c.toNat ≤ 0x7F) then "ASCII"
  else "UTF-8"

/-- JS regex word character (\w): ASCII letter, digit or underscore. -/
def isWordChar (c : Char) : Bool := c.isAlpha || c.isDigit || c == '_'

/-- Wordness of the character on one side of a position (out of range
counts as non-word). -/
def isWordOpt : Option Char → Bool
  | none => false
  | some c => isWordChar c

/-- JS regex word boundary \b between two adjacent positions. -/
def wordBoundary (a b : Option Char) : Bool := isWordOpt a != isWordOpt b

/-- Whether one alternative w of a regex /\b(w1|w2|...)\b/ matches at the
current position: w is a literal prefix of the remaining text l with a
word boundary before its first and after its last character (prev is the
character just before the position). -/
def altMatchesAt (w : List Char) (prev : Option Char) (l : List Char) : Bool :=
  !w.isEmpty && w.isPrefixOf l && wordBoundary prev l.head? &&
    wordBoundary w.getLast? ((l.drop w.length).head?)

/-- The first alternative (in pattern order) matching at the current
position, as the JS regex engine picks it. -/
def firstAltMatch (ws : List (List Char)) (prev : Option Char) (l : List Char) :
    Option (List Char) :=
  ws.find? (fun w => altMatchesAt w prev l)

/-- sample.match(/\b(w1|w2|...)\b/g).length: non-overlapping matches
counted left to right; after a match the scan resumes after the matched
word.  Fuel bounds the scan; every step consumes at least one character,
so fuel = sample length is enough. -/
def countMatchesAux (ws : List (List Char)) : Nat → Option Char → List Char → Nat
  | 0, _, _ => 0
  | _, _, [] => 0
  | fuel + 1, prev, c :: rest =>
    match firstAltMatch ws prev (c :: rest) with
    | some w => 1 + countMatchesAux ws fuel w.getLast? ((c :: rest).drop w.length)
    | none => countMatchesAux ws fuel (some c) rest

/-- Number of stop-word matches of one language pattern in a sample. -/
def countMatches (ws : List (List Char)) (sample : List Char) : Nat :=
  countMatchesAux ws sample.length none sample

/-- The five stop-word patterns of MetadataExtractor.detectLanguage
(lines 473-479), in evaluation order. -/
def languagePatterns : List (String × List String) :=
  [("English",
    ["the", "and", "or", "but", "in", "on", "at", "to", "for", "of", "with",
     "by", "this", "that", "have", "has", "will", "would", "could", "should"]),
   ("French",
    ["le", "la", "les", "de", "du", "des", "et", "ou", "mais", "dans", "sur",
     "pour", "avec", "ce", "cette", "avoir", "être", "sera", "serait"]),
   ("German",
    ["der", "die", "das", "und", "oder", "aber", "in", "auf", "zu", "für",
     "mit", "von", "haben", "sein", "wird", "würde", "könnte", "sollte"]),
   ("Spanish",
    ["el", "la", "los", "las", "de", "del", "y", "o", "pero", "en", "sobre",
     "para", "con", "este", "esta", "tener", "ser", "será", "sería"]),
   ("Italian",
    ["il", "la", "lo", "gli", "le", "di", "del", "e", "o", "ma", "in", "su",
     "per", "con", "questo", "questa", "avere", "essere", "sarà"])]

/-- text.toLowerCase().substring(0, 1000) of
MetadataExtractor.detectLanguage (line 471). -/
def languageSample (text : List Char) : List Char := (text.map Char.toLower).take 1000

/-- Match count of one language's stop-word pattern against a sample. -/
def languageScore (ws : List String) (sample : List Char) : Nat :=
  countMatches (ws.map String.data) sample

/-- MetadataExtractor.detectLanguage (lines 470-493): fold over the
patterns in evaluation order keeping the first language whose match
count strictly exceeds the running maximum; return it only when the
final maximum exceeds 3, else "Unknown". -/
def detectLanguage (text : List Char) : String :=
  let sample := languageSample text
  let r := languagePatterns.foldl
    (fun p lp =>
      let matchCount := languageScore lp.2 sample
      if p.1 < matchCount then (matchCount, lp.1) else p)
    (0, "Unknown")
  if 3 < r.1 then r.2 else "Unknown"

/-- DataView byte read with JS out-of-range behaviour left to callers
(in-range in every reachable read of the walk below). -/
def byteAt (bytes : Bytes) (i : Nat) : Nat := bytes.getD i 0

/-- view.getUint16(off, true): little-endian 16-bit read. -/
def readU16 (bytes : Bytes) (off : Nat) : Nat :=
  byteAt bytes off + 256 * byteAt bytes (off + 1)

/-- view.getUint32(off, true): little-endian 32-bit read. -/
def readU32 (bytes : Bytes) (off : Nat) : Nat :=
  byteAt bytes off + 256 * byteAt bytes (off + 1) + 65536 * byteAt bytes (off + 2) +
    16777216 * byteAt bytes (off + 3)

/-- The ZIP local-file-header walk of
MetadataExtractor.extractArchiveMetadata (lines 267-280): while the
cursor leaves at least 30 bytes before the buffer end and the header
magic matches, accumulate the uncompressed size at offset + 22 and
advance by 30 + filename length + extra-field length + compressed size.
The offset strictly increases by at least 30 each iteration, so fuel =
buffer length + 1 is enough. -/
def zipWalk (bytes : Bytes) : Nat → Nat → Nat → Nat
  | 0, _, acc => acc
  | fuel + 1, offset, acc =>
    if offset + 30 < bytes.length then
      if readU32 bytes offset = 0x04034b50 then
        zipWalk bytes fuel
          (offset + 30 + readU16 bytes (offset + 26) + readU16 bytes (offset + 28) +
            readU32 bytes (offset + 18))
          (acc + readU32 bytes (offset + 22))
      else acc
    else acc

/-- The accumulated uncompressed size of the walk started at offset 0. -/
def zipUncompressedSize (bytes : Bytes) : Nat := zipWalk bytes (bytes.length + 1) 0 0

/-- The EXIF tag dictionary produced by the external exif-js library
(EXIF.getAllTags); getExifData never rejects, it resolves an empty
dictionary on error (lines 316-327).  tagNames models Object.keys; the
typed fields model the tags the source reads. -/
structure ExifTags where
  tagNames : List String
  xResolution : Option Nat
  yResolution : Option Nat
  artist : Option String
  imageDescription : Option String
  software : Option String

/-- JS truthiness of a possibly-absent numeric property. -/
def truthyNum : Option Nat → Bool
  | none => false
  | some n => n != 0

/-- JS truthiness of a possibly-absent string property. -/
def truthyStr : Option String → Bool
  | none => false
  | some s => s != ""

/-- What the browser media element reports after loadedmetadata. -/
structure MediaInfo where
  duration : ℚ
  videoWidth : Nat
  videoHeight : Nat

/-- Outcomes of the external browser and library effects the extraction
pipeline awaits.  Each stage of the source catches its own failure, so
these outcomes are inputs of the embedding, never sources of uncaught
exceptions: readOk - every ArrayBuffer read of the file's bytes;
digestOk - the crypto.subtle.digest promise; imageDims - image decoding
(none on load error or timeout); exif - the exif-js dictionary; pixels -
the downscaled-canvas RGBA samples (none when canvas drawing or
getImageData fails); media - the media element's metadata (none on
decode error or the 5-second timeout); textContent - file.text() (none
when the read fails); startTime and endTime - performance.now(). -/
structure Effects where
  readOk : Bool
  digestOk : Bool
  imageDims : Option (Nat × Nat)
  exif : ExifTags
  pixels : Option (List (Nat × Nat × Nat × Nat))
  media : Option MediaInfo
  textContent : Option (List Char)
  startTime : ℚ
  endTime : ℚ

/-- The immutable reference to an uploaded file: declared name, declared
MIME type, last-modified timestamp and the raw byte buffer. -/
structure FileHandle where
  name : String
  type : String
  lastModified : Nat
  bytes : Bytes

/-- File.size: the length of the byte buffer. -/
def FileHandle.size (f : FileHandle) : Nat := f.bytes.length

/-- The ExtendedMetadata record (lines 3-58): identity fields plus
independently optional fields; absent is none.  sampleRate, channels,
codec and architecture are declared in the source interface but never
assigned anywhere. -/
structure ExtendedMetadata where
  name : String
  size : Nat
  type : String
  lastModified : Nat
  extension : String
  dimensions : Option (Nat × Nat) := none
  exifData : Option ExifTags := none
  colorDepth : Option Nat := none
  hasAlpha : Option Bool := none
  aspectRatioStr : Option String := none
  dpi : Option (Nat × Nat) := none
  duration : Option ℚ := none
  bitrate : Option ℤ := none
  sampleRate : Option Nat := none
  channels : Option Nat := none
  codec : Option String := none
  pageCount : Option Nat := none
  wordCount : Option Nat := none
  characterCount : Option Nat := none
  lineCount : Option Nat := none
  compressionRatioVal : Option ℚ := none
  checksum : Option String := none
  md5 : Option String := none
  encoding : Option String := none
  language : Option String := none
  creator : Option String := none
  subject : Option String := none
  keywords : Option (List String) := none
  entropy : Option ℝ := none
  isExecutable : Option Bool := none
  architecture : Option String := none
  isEncrypted : Option Bool := none
  hasMetadata : Option Bool := none
  fileSignature : Option String := none
  processingTime : Option ℚ := none

/-- MetadataExtractor.getFileSignature (lines 106-117): first 16 bytes
as space-separated uppercase hex; empty string when the read fails. -/
def getFileSignature (f : FileHandle) (eff : Effects) : String :=
  if eff.readOk then String.intercalate " " ((f.bytes.take 16).map byteToHexUpper)
  else ""

/-- imageData.data scan of MetadataExtractor.hasAlphaChannel
(lines 329-335): some sampled pixel has alpha below 255. -/
def hasAlphaChannel (px : List (Nat × Nat × Nat × Nat)) : Bool :=
  px.any fun p => p.2.2.2 < 255

/-- (data[i] << 16) | (data[i+1] << 8) | data[i+2] over byte values. -/
def pixelColor (p : Nat × Nat × Nat × Nat) : Nat :=
  p.1 * 65536 + p.2.1 * 256 + p.2.2.1

/-- MetadataExtractor.estimateColorDepth (lines 337-352): count distinct
RGB colors and map through the thresholds.  The source short-circuits to
24 once the count exceeds 65536, which agrees with the final threshold
chain, so the count is taken in full here. -/
def estimateColorDepth (px : List (Nat × Nat × Nat × Nat)) : Nat :=
  let uniqueColors := ((px.map pixelColor).dedup).length
  if uniqueColors ≤ 2 then 1
  else if uniqueColors ≤ 16 then 4
  else if uniqueColors ≤ 256 then 8
  else if uniqueColors ≤ 65536 then 16
  else 24

/-- First stage of extractImageMetadata (lines 120-126): decoded
dimensions and aspect ratio; on load error or timeout nothing is set. -/
def imageDimsUpdate (dims : Option (Nat × Nat)) (m : ExtendedMetadata) : ExtendedMetadata :=
  match dims with
  | some wh =>
    { m with dimensions := some wh,
             aspectRatioStr := some (calculateAspectRatio wh.1 wh.2) }
  | none => m

/-- DPI from the EXIF resolution tags when both are truthy (132-137). -/
def imageDpiUpdate (ex : ExifTags) (m : ExtendedMetadata) : ExtendedMetadata :=
  if truthyNum ex.xResolution && truthyNum ex.yResolution then
    { m with dpi := some (ex.xResolution.getD 0, ex.yResolution.getD 0) }
  else m

/-- creator from the EXIF Artist tag when truthy (line 139). -/
def imageCreatorUpdate (ex : ExifTags) (m : ExtendedMetadata) : ExtendedMetadata :=
  if truthyStr ex.artist then { m with creator := ex.artist } else m

/-- subject from the EXIF ImageDescription tag when truthy (line 140). -/
def imageSubjectUpdate (ex : ExifTags) (m : ExtendedMetadata) : ExtendedMetadata :=
  if truthyStr ex.imageDescription then { m with subject := ex.imageDescription } else m

/-- keywords from the EXIF Software tag when truthy (line 141). -/
def imageKeywordsUpdate (ex : ExifTags) (m : ExtendedMetadata) : ExtendedMetadata :=
  if truthyStr ex.software then { m with keywords := some [ex.software.getD ""] } else m

/-- Third stage of extractImageMetadata (lines 146-170): canvas pixel
analysis; when drawing or getImageData fails nothing is set. -/
def imagePixelsUpdate (px : Option (List (Nat × Nat × Nat × Nat))) (m : ExtendedMetadata) :
    ExtendedMetadata :=
  match px with
  | some p =>
    { m with hasAlpha := some (hasAlphaChannel p),
             colorDepth := some (estimateColorDepth p) }
  | none => m

/-- MetadataExtractor.extractImageMetadata (lines 119-171): three
independently caught stages - decoded dimensions and aspect ratio; the
EXIF dictionary (always assigned, lines 129-130) with DPI and authorship
tags; canvas pixel analysis. -/
def extractImageMetadata (eff : Effects) (m : ExtendedMetadata) : ExtendedMetadata :=
  imagePixelsUpdate eff.pixels
    (imageKeywordsUpdate eff.exif
      (imageSubjectUpdate eff.exif
        (imageCreatorUpdate eff.exif
          (imageDpiUpdate eff.exif
            { imageDimsUpdate eff.imageDims m with exifData := some eff.exif }))))

/-- Dimensions and aspect ratio of extractMediaMetadata (lines 192-198):
set only for a video element (a video MIME prefix) reporting a positive
videoWidth. -/
def mediaVideoUpdate (f : FileHandle) (info : MediaInfo) (m : ExtendedMetadata) :
    ExtendedMetadata :=
  if strStartsWith f.type "video/" && decide (0 < info.videoWidth) then
    { m with dimensions := some (info.videoWidth, info.videoHeight),
             aspectRatioStr := some (calculateAspectRatio info.videoWidth info.videoHeight) }
  else m

/-- bitrate = Math.round(file.size * 8 / duration), only when the
duration is truthy and positive (lines 200-203). -/
def mediaBitrateUpdate (f : FileHandle) (info : MediaInfo) (m : ExtendedMetadata) :
    ExtendedMetadata :=
  if info.duration ≠ 0 ∧ 0 < info.duration then
    { m with bitrate := some (roundQ ((f.size * 8 : ℚ) / info.duration)) }
  else m

/-- MetadataExtractor.extractMediaMetadata (lines 173-209): on decode
timeout or error nothing is set; otherwise duration always, then the
video dimension stage, then the bitrate stage. -/
def extractMediaMetadata (f : FileHandle) (eff : Effects) (m : ExtendedMetadata) :
    ExtendedMetadata :=
  match eff.media with
  | none => m
  | some info =>
    mediaBitrateUpdate f info
      (mediaVideoUpdate f info { m with duration := some info.duration })

/-- subject from /Title inside the /Info block (lines 220-221). -/
def pdfTitleUpdate (info : List Char) (m : ExtendedMetadata) : ExtendedMetadata :=
  match findKeyParen ("/Title".data) info with
  | some t => { m with subject := some (String.mk t) }
  | none => m

/-- creator from /Author inside the /Info block (lines 223-224). -/
def pdfAuthorUpdate (info : List Char) (m : ExtendedMetadata) : ExtendedMetadata :=
  match findKeyParen ("/Author".data) info with
  | some a => { m with creator := some (String.mk a) }
  | none => m

/-- keywords from /Keywords inside the /Info block, comma-split and
trimmed (lines 226-227). -/
def pdfKeywordsUpdate (info : List Char) (m : ExtendedMetadata) : ExtendedMetadata :=
  match findKeyParen ("/Keywords".data) info with
  | some k =>
    let ks := (splitCharAux ',' [] k).map (fun w => String.mk (trimJS w))
    { m with keywords := some ks }
  | none => m

/-- The /Info block stage of extractPDFMetadata (lines 216-228). -/
def pdfInfoUpdate (blk : Option (List Char)) (m : ExtendedMetadata) : ExtendedMetadata :=
  match blk with
  | some info => pdfKeywordsUpdate info (pdfAuthorUpdate info (pdfTitleUpdate info m))
  | none => m

/-- pageCount, set only when at least one /Type /Page match exists
(match with /g returns null on zero matches, lines 230-233). -/
def pdfPagesUpdate (pages : Nat) (m : ExtendedMetadata) : ExtendedMetadata :=
  if 0 < pages then { m with pageCount := some pages } else m

/-- MetadataExtractor.extractPDFMetadata (lines 211-244): on read
failure nothing is set; otherwise the latin1 text is pattern-scanned for
the /Info block (subject, creator, keywords), the /Type /Page count is
set only when at least one match exists, and word and character counts
of the printable-ASCII-collapsed text are always set. -/
def extractPDFMetadata (f : FileHandle) (eff : Effects) (m : ExtendedMetadata) :
    ExtendedMetadata :=
  if eff.readOk then
    let text := decodeLatin1 f.bytes
    let textContent := pdfTextContent text
    { pdfPagesUpdate (countTypePage text.length text) (pdfInfoUpdate (findInfoBlock text) m) with
        wordCount := some (countWords textContent),
        characterCount := some textContent.length }
  else m

/-- MetadataExtractor.extractTextMetadata (lines 246-258): on read
failure nothing is set; otherwise word, character and line counts,
encoding and language are all set. -/
def extractTextMetadata (eff : Effects) (m : ExtendedMetadata) : ExtendedMetadata :=
  match eff.textContent with
  | none => m
  | some text =>
    { m with wordCount := some (countWords text),
             characterCount := some text.length,
             lineCount := some (text.count '\n' + 1),
             encoding := some (detectEncoding text),
             language := some (detectLanguage text) }

/-- MetadataExtractor.extractArchiveMetadata (lines 260-289): on read
failure, or when the buffer has fewer than 4 bytes (the DataView read
throws and is caught), or when the first 4 bytes are not the ZIP magic,
nothing is set; otherwise the compression ratio fileSize divided by the
walked uncompressed total, rounded to 2 decimals, is set only when that
total is positive. -/
def extractArchiveMetadata (f : FileHandle) (eff : Effects) (m : ExtendedMetadata) :
    ExtendedMetadata :=
  if eff.readOk then
    if 4 ≤ f.bytes.length then
      if readU32 f.bytes 0 = 0x04034b50 then
        let uncompressedSize := zipUncompressedSize f.bytes
        if 0 < uncompressedSize then
          let ratio := round2Q ((f.size : ℚ) / (uncompressedSize : ℚ))
          { m with compressionRatioVal := some ratio }
        else m
      else m
    else m
  else m

/-- MetadataExtractor.isExecutableFile (lines 401-405). -/
def isExecutableFile (filename : String) : Bool :=
  (["exe", "msi", "app", "deb", "rpm", "dmg", "pkg", "run", "bin", "com", "bat",
    "cmd", "sh"] : List String).contains (getFileExtension filename)

/-- Boolean comparison of reals (the JS float comparison entropy > 7.5,
idealized over the reals). -/
noncomputable def realLtB (x y : ℝ) : Bool := @decide (x < y) (Classical.propDecidable _)

/-- MetadataExtractor.detectEncryption (lines 407-438): false when the
read fails (catch); else true when the first bytes carry one of the
known container signatures or the entropy exceeds 7.5. -/
noncomputable def detectEncryption (f : FileHandle) (eff : Effects) : Bool :=
  if eff.readOk then
    let sample := f.bytes.take 1024
    let sigMatch :=
      ([[0x50, 0x4B, 0x03, 0x04], [0x37, 0x7A, 0xBC, 0xAF],
        [0x52, 0x61, 0x72, 0x21]] : List Bytes).any
        (fun sig => decide (sig.length ≤ sample.length) && sig.isPrefixOf sample)
    sigMatch || realLtB 7.5 (calculateEntropyBytes f.size f.bytes)
  else false

/-- MetadataExtractor.hasEmbeddedMetadata (lines 440-457): for images a
non-empty EXIF dictionary; for PDFs the presence of "/Info" or
"/Metadata" in the first 2048 bytes (false when the read fails); false
for everything else. -/
def hasEmbeddedMetadata (f : FileHandle) (eff : Effects) : Bool :=
  if strStartsWith f.type "image/" then !eff.exif.tagNames.isEmpty
  else if f.type = "application/pdf" then
    if eff.readOk then
      let text := decodeLatin1 (f.bytes.take 2048)
      listIncludes ("/Info".data) text || listIncludes ("/Metadata".data) text
    else false
  else false

/-- basicMetadata of extractMetadata (lines 64-73): the identity fields
plus the file signature; every optional field still absent. -/
def baseRecord (f : FileHandle) (eff : Effects) : ExtendedMetadata :=
  { name := f.name
    size := f.size
    type := f.type
    lastModified := f.lastModified
    extension := getFileExtension f.name
    fileSignature := some (getFileSignature f eff) }

/-- The classified format-specific extraction step (lines 76-86). -/
def formatStage (f : FileHandle) (eff : Effects) (m : ExtendedMetadata) : ExtendedMetadata :=
  match classifyFormat f.type f.name with
  | some .image => extractImageMetadata eff m
  | some .media => extractMediaMetadata f eff m
  | some .document => extractPDFMetadata f eff m
  | some .text => extractTextMetadata eff m
  | some .archive => extractArchiveMetadata f eff m
  | none => m

/-- MetadataExtractor.extractMetadata (lines 61-100): identity fields,
then the file signature, then the classified format-specific extractor,
then the universal analyzers; the record is always assembled and
returned. -/
noncomputable def extractMetadata (digest : String → Bytes → Bytes)
    (f : FileHandle) (eff : Effects) : ExtendedMetadata :=
  { formatStage f eff (baseRecord f eff) with
    checksum := some (calculateChecksum digest eff.readOk eff.digestOk "SHA-256" f.bytes)
    md5 := some (calculateChecksum digest eff.readOk eff.digestOk "MD5" f.bytes)
    entropy := some (if eff.readOk then calculateEntropyBytes f.size f.bytes else 0)
    isExecutable := some (isExecutableFile f.name)
    isEncrypted := some (detectEncryption f eff)
    hasMetadata := some (hasEmbeddedMetadata f eff)
    processingTime := some (round2Q (eff.endTime - eff.startTime)) }

/-- The boundary contract extract(fileHandle): every stage of
extractMetadata catches its own failure (each helper wraps its body in
try/catch and returns a default, and the orchestrator body outside those
helpers performs no fallible operation), so the promise always resolves
with the assembled record and never rejects, whatever the effect
outcomes. -/
noncomputable def extract (digest : String → Bytes → Bytes) (f : FileHandle)
    (eff : Effects) : Except Unit ExtendedMetadata :=
  Except.ok (extractMetadata digest f eff)

/-- Canonical form of the dimensions stage: it can only change
dimensions and aspectRatioStr. -/
theorem imageDimsUpdate_def (d : Option (Nat × Nat)) (m : ExtendedMetadata) :
    imageDimsUpdate d m =
      { m with dimensions := (imageDimsUpdate d m).dimensions,
               aspectRatioStr := (imageDimsUpdate d m).aspectRatioStr } := by
  unfold imageDimsUpdate
  cases d <;> rfl

/-- Canonical form of the DPI stage: it can only change dpi. -/
theorem imageDpiUpdate_def (ex : ExifTags) (m : ExtendedMetadata) :
    imageDpiUpdate ex m = { m with dpi := (imageDpiUpdate ex m).dpi } := by
  unfold imageDpiUpdate
  split <;> rfl

/-- Canonical form of the Artist stage: it can only change creator. -/
theorem imageCreatorUpdate_def (ex : ExifTags) (m : ExtendedMetadata) :
    imageCreatorUpdate ex m = { m with creator := (imageCreatorUpdate ex m).creator } := by
  unfold imageCreatorUpdate
  split <;> rfl

/-- Canonical form of the description stage: it can only change subject. -/
theorem imageSubjectUpdate_def (ex : ExifTags) (m : ExtendedMetadata) :
    imageSubjectUpdate ex m = { m with subject := (imageSubjectUpdate ex m).subject } := by
  unfold imageSubjectUpdate
  split <;> rfl

/-- Canonical form of the software stage: it can only change keywords. -/
theorem imageKeywordsUpdate_def (ex : ExifTags) (m : ExtendedMetadata) :
    imageKeywordsUpdate ex m = { m with keywords := (imageKeywordsUpdate ex m).keywords } := by
  unfold imageKeywordsUpdate
  split <;> rfl

/-- Canonical form of the pixel stage: it can only change hasAlpha and
colorDepth. -/
theorem imagePixelsUpdate_def (px : Option (List (Nat × Nat × Nat × Nat)))
    (m : ExtendedMetadata) :
    imagePixelsUpdate px m =
      { m with hasAlpha := (imagePixelsUpdate px m).hasAlpha,
               colorDepth := (imagePixelsUpdate px m).colorDepth } := by
  unfold imagePixelsUpdate
  cases px <;> rfl

/-- Canonical form of the video stage: it can only change dimensions and
aspectRatioStr. -/
theorem mediaVideoUpdate_def (f : FileHandle) (info : MediaInfo) (m : ExtendedMetadata) :
    mediaVideoUpdate f info m =
      { m with dimensions := (mediaVideoUpdate f info m).dimensions,
               aspectRatioStr := (mediaVideoUpdate f info m).aspectRatioStr } := by
  unfold mediaVideoUpdate
  split <;> rfl

/-- Canonical form of the bitrate stage: it can only change bitrate. -/
theorem mediaBitrateUpdate_def (f : FileHandle) (info : MediaInfo) (m : ExtendedMetadata) :
    mediaBitrateUpdate f info m =
      { m with bitrate := (mediaBitrateUpdate f info m).bitrate } := by
  unfold mediaBitrateUpdate
  split <;> rfl

/-- Canonical form of the /Title stage: it can only change subject. -/
theorem pdfTitleUpdate_def (info : List Char) (m : ExtendedMetadata) :
    pdfTitleUpdate info m = { m with subject := (pdfTitleUpdate info m).subject } := by
  unfold pdfTitleUpdate
  split <;> rfl

/-- Canonical form of the /Author stage: it can only change creator. -/
theorem pdfAuthorUpdate_def (info : List Char) (m : ExtendedMetadata) :
    pdfAuthorUpdate info m = { m with creator := (pdfAuthorUpdate info m).creator } := by
  unfold pdfAuthorUpdate
  split <;> rfl

/-- Canonical form of the /Keywords stage: it can only change keywords. -/
theorem pdfKeywordsUpdate_def (info : List Char) (m : ExtendedMetadata) :
    pdfKeywordsUpdate info m = { m with keywords := (pdfKeywordsUpdate info m).keywords } := by
  unfold pdfKeywordsUpdate
  split <;> rfl

/-- Canonical form of the page-count stage: it can only change
pageCount. -/
theorem pdfPagesUpdate_def (pages : Nat) (m : ExtendedMetadata) :
    pdfPagesUpdate pages m = { m with pageCount := (pdfPagesUpdate pages m).pageCount } := by
  unfold pdfPagesUpdate
  split <;> rfl

/-- The fields the image extractor never assigns. -/
def imageUntouched (a b : ExtendedMetadata) : Prop :=
  a.duration = b.duration ∧ a.bitrate = b.bitrate ∧ a.sampleRate = b.sampleRate ∧
  a.channels = b.channels ∧ a.codec = b.codec ∧ a.pageCount = b.pageCount ∧
  a.wordCount = b.wordCount ∧ a.characterCount = b.characterCount ∧
  a.lineCount = b.lineCount ∧ a.compressionRatioVal = b.compressionRatioVal ∧
  a.encoding = b.encoding ∧ a.language = b.language ∧ a.fileSignature = b.fileSignature ∧
  a.architecture = b.architecture

/-- Agreement on dimensions and aspectRatioStr. -/
def dimsAgree (a b : ExtendedMetadata) : Prop :=
  a.dimensions = b.dimensions ∧ a.aspectRatioStr = b.aspectRatioStr

/-- Agreement on hasAlpha and colorDepth. -/
def alphaAgree (a b : ExtendedMetadata) : Prop :=
  a.hasAlpha = b.hasAlpha ∧ a.colorDepth = b.colorDepth

/-- Transitivity of imageUntouched. -/
theorem imageUntouched_trans {a b c : ExtendedMetadata} :
    imageUntouched a b → imageUntouched b c → imageUntouched a c := by
  intro h1 h2
  obtain ⟨p1, p2, p3, p4, p5, p6, p7, p8, p9, p10, p11, p12, p13, p14⟩ := h1
  obtain ⟨q1, q2, q3, q4, q5, q6, q7, q8, q9, q10, q11, q12, q13, q14⟩ := h2
  exact ⟨p1.trans q1, p2.trans q2, p3.trans q3, p4.trans q4, p5.trans q5, p6.trans q6,
    p7.trans q7, p8.trans q8, p9.trans q9, p10.trans q10, p11.trans q11, p12.trans q12,
    p13.trans q13, p14.trans q14⟩

/-- Transitivity of dimsAgree. -/
theorem dimsAgree_trans {a b c : ExtendedMetadata} :
    dimsAgree a b → dimsAgree b c → dimsAgree a c :=
  fun h1 h2 => ⟨h1.1.trans h2.1, h1.2.trans h2.2⟩

/-- Transitivity of alphaAgree. -/
theorem alphaAgree_trans {a b c : ExtendedMetadata} :
    alphaAgree a b → alphaAgree b c → alphaAgree a c :=
  fun h1 h2 => ⟨h1.1.trans h2.1, h1.2.trans h2.2⟩

/-- The dimensions stage only writes image fields. -/
theorem imageDimsUpdate_untouched (d : Option (Nat × Nat)) (m : ExtendedMetadata) :
    imageUntouched (imageDimsUpdate d m) m := by
  rw [imageDimsUpdate_def]
  exact ⟨rfl, rfl, rfl, rfl, rfl, rfl, rfl, rfl, rfl, rfl, rfl, rfl, rfl, rfl⟩

/-- The DPI stage only writes dpi. -/
theorem imageDpiUpdate_untouched (ex : ExifTags) (m : ExtendedMetadata) :
    imageUntouched (imageDpiUpdate ex m) m := by
  rw [imageDpiUpdate_def]
  exact ⟨rfl, rfl, rfl, rfl, rfl, rfl, rfl, rfl, rfl, rfl, rfl, rfl, rfl, rfl⟩

/-- The Artist stage only writes creator. -/
theorem imageCreatorUpdate_untouched (ex : ExifTags) (m : ExtendedMetadata) :
    imageUntouched (imageCreatorUpdate ex m) m := by
  rw [imageCreatorUpdate_def]
  exact ⟨rfl, rfl, rfl, rfl, rfl, rfl, rfl, rfl, rfl, rfl, rfl, rfl, rfl, rfl⟩

/-- The description stage only writes subject. -/
theorem imageSubjectUpdate_untouched (ex : ExifTags) (m : ExtendedMetadata) :
    imageUntouched (imageSubjectUpdate ex m) m := by
  rw [imageSubjectUpdate_def]
  exact ⟨rfl, rfl, rfl, rfl, rfl, rfl, rfl, rfl, rfl, rfl, rfl, rfl, rfl, rfl⟩

/-- The software stage only writes keywords. -/
theorem imageKeywordsUpdate_untouched (ex : ExifTags) (m : ExtendedMetadata) :
    imageUntouched (imageKeywordsUpdate ex m) m := by
  rw [imageKeywordsUpdate_def]
  exact ⟨rfl, rfl, rfl, rfl, rfl, rfl, rfl, rfl, rfl, rfl, rfl, rfl, rfl, rfl⟩

/-- The pixel stage only writes hasAlpha and colorDepth. -/
theorem imagePixelsUpdate_untouched (px : Option (List (Nat × Nat × Nat × Nat)))
    (m : ExtendedMetadata) :
    imageUntouched (imagePixelsUpdate px m) m := by
  rw [imagePixelsUpdate_def]
  exact ⟨rfl, rfl, rfl, rfl, rfl, rfl, rfl, rfl, rfl, rfl, rfl, rfl, rfl, rfl⟩

/-- The image extractor never assigns the fields of imageUntouched. -/
theorem extractImageMetadata_untouched (eff : Effects) (m : ExtendedMetadata) :
    imageUntouched (extractImageMetadata eff m) m := by
  unfold extractImageMetadata
  refine imageUntouched_trans (imagePixelsUpdate_untouched _ _) ?_
  refine imageUntouched_trans (imageKeywordsUpdate_untouched _ _) ?_
  refine imageUntouched_trans (imageSubjectUpdate_untouched _ _) ?_
  refine imageUntouched_trans (imageCreatorUpdate_untouched _ _) ?_
  refine imageUntouched_trans (imageDpiUpdate_untouched _ _) ?_
  exact imageUntouched_trans
    (show imageUntouched _ (imageDimsUpdate eff.imageDims m) from
      ⟨rfl, rfl, rfl, rfl, rfl, rfl, rfl, rfl, rfl, rfl, rfl, rfl, rfl, rfl⟩)
    (imageDimsUpdate_untouched _ _)

/-- The DPI, Artist, description, software and pixel stages preserve
dimensions and aspectRatioStr. -/
theorem imageDpiUpdate_dims (ex : ExifTags) (m : ExtendedMetadata) :
    dimsAgree (imageDpiUpdate ex m) m := by
  rw [imageDpiUpdate_def]
  exact ⟨rfl, rfl⟩

/-- The Artist stage preserves dimensions and aspectRatioStr. -/
theorem imageCreatorUpdate_dims (ex : ExifTags) (m : ExtendedMetadata) :
    dimsAgree (imageCreatorUpdate ex m) m := by
  rw [imageCreatorUpdate_def]
  exact ⟨rfl, rfl⟩

/-- The description stage preserves dimensions and aspectRatioStr. -/
theorem imageSubjectUpdate_dims (ex : ExifTags) (m : ExtendedMetadata) :
    dimsAgree (imageSubjectUpdate ex m) m := by
  rw [imageSubjectUpdate_def]
  exact ⟨rfl, rfl⟩

/-- The software stage preserves dimensions and aspectRatioStr. -/
theorem imageKeywordsUpdate_dims (ex : ExifTags) (m : ExtendedMetadata) :
    dimsAgree (imageKeywordsUpdate ex m) m := by
  rw [imageKeywordsUpdate_def]
  exact ⟨rfl, rfl⟩

/-- The pixel stage preserves dimensions and aspectRatioStr. -/
theorem imagePixelsUpdate_dims (px : Option (List (Nat × Nat × Nat × Nat)))
    (m : ExtendedMetadata) :
    dimsAgree (imagePixelsUpdate px m) m := by
  rw [imagePixelsUpdate_def]
  exact ⟨rfl, rfl⟩

/-- When image decoding fails, the image extractor leaves dimensions and
aspectRatioStr untouched. -/
theorem extractImageMetadata_dims_none (eff : Effects) (m : ExtendedMetadata)
    (h : eff.imageDims = none) :
    dimsAgree (extractImageMetadata eff m) m := by
  unfold extractImageMetadata
  rw [h]
  refine dimsAgree_trans (imagePixelsUpdate_dims _ _) ?_
  refine dimsAgree_trans (imageKeywordsUpdate_dims _ _) ?_
  refine dimsAgree_trans (imageSubjectUpdate_dims _ _) ?_
  refine dimsAgree_trans (imageCreatorUpdate_dims _ _) ?_
  refine dimsAgree_trans (imageDpiUpdate_dims _ _) ?_
  exact ⟨rfl, rfl⟩

/-- The dimensions stage preserves hasAlpha and colorDepth. -/
theorem imageDimsUpdate_alpha (d : Option (Nat × Nat)) (m : ExtendedMetadata) :
    alphaAgree (imageDimsUpdate d m) m := by
  rw [imageDimsUpdate_def]
  exact ⟨rfl, rfl⟩

/-- The DPI stage preserves hasAlpha and colorDepth. -/
theorem imageDpiUpdate_alpha (ex : ExifTags) (m : ExtendedMetadata) :
    alphaAgree (imageDpiUpdate ex m) m := by
  rw [imageDpiUpdate_def]
  exact ⟨rfl, rfl⟩

/-- The Artist stage preserves hasAlpha and colorDepth. -/
theorem imageCreatorUpdate_alpha (ex : ExifTags) (m : ExtendedMetadata) :
    alphaAgree (imageCreatorUpdate ex m) m := by
  rw [imageCreatorUpdate_def]
  exact ⟨rfl, rfl⟩

/-- The description stage preserves hasAlpha and colorDepth. -/
theorem imageSubjectUpdate_alpha (ex : ExifTags) (m : ExtendedMetadata) :
    alphaAgree (imageSubjectUpdate ex m) m := by
  rw [imageSubjectUpdate_def]
  exact ⟨rfl, rfl⟩

/-- The software stage preserves hasAlpha and colorDepth. -/
theorem imageKeywordsUpdate_alpha (ex : ExifTags) (m : ExtendedMetadata) :
    alphaAgree (imageKeywordsUpdate ex m) m := by
  rw [imageKeywordsUpdate_def]
  exact ⟨rfl, rfl⟩

/-- When pixel sampling fails, the image extractor leaves hasAlpha and
colorDepth untouched. -/
theorem extractImageMetadata_alpha_none (eff : Effects) (m : ExtendedMetadata)
    (h : eff.pixels = none) :
    alphaAgree (extractImageMetadata eff m) m := by
  unfold extractImageMetadata
  rw [h]
  refine alphaAgree_trans (show alphaAgree _ _ from ⟨rfl, rfl⟩) ?_
  refine alphaAgree_trans (imageKeywordsUpdate_alpha _ _) ?_
  refine alphaAgree_trans (imageSubjectUpdate_alpha _ _) ?_
  refine alphaAgree_trans (imageCreatorUpdate_alpha _ _) ?_
  refine alphaAgree_trans (imageDpiUpdate_alpha _ _) ?_
  refine alphaAgree_trans (show alphaAgree _ _ from ⟨rfl, rfl⟩) ?_
  exact imageDimsUpdate_alpha _ _

/-- A media decode timeout or error leaves the record unchanged. -/
theorem extractMediaMetadata_none (f : FileHandle) (eff : Effects) (m : ExtendedMetadata)
    (h : eff.media = none) : extractMediaMetadata f eff m = m := by
  unfold extractMediaMetadata
  rw [h]

/-- The video stage preserves bitrate and fileSignature. -/
theorem mediaVideoUpdate_preserves (f : FileHandle) (info : MediaInfo) (m : ExtendedMetadata) :
    (mediaVideoUpdate f info m).bitrate = m.bitrate ∧
      (mediaVideoUpdate f info m).fileSignature = m.fileSignature := by
  rw [mediaVideoUpdate_def]
  exact ⟨rfl, rfl⟩

/-- The bitrate stage preserves dimensions, aspectRatioStr and
fileSignature. -/
theorem mediaBitrateUpdate_preserves (f : FileHandle) (info : MediaInfo)
    (m : ExtendedMetadata) :
    (mediaBitrateUpdate f info m).dimensions = m.dimensions ∧
      (mediaBitrateUpdate f info m).aspectRatioStr = m.aspectRatioStr ∧
      (mediaBitrateUpdate f info m).fileSignature = m.fileSignature := by
  rw [mediaBitrateUpdate_def]
  exact ⟨rfl, rfl, rfl⟩

/-- The media extractor preserves fileSignature. -/
theorem extractMediaMetadata_fileSignature (f : FileHandle) (eff : Effects)
    (m : ExtendedMetadata) :
    (extractMediaMetadata f eff m).fileSignature = m.fileSignature := by
  unfold extractMediaMetadata
  cases eff.media with
  | none => rfl
  | some info =>
    refine ((mediaBitrateUpdate_preserves _ _ _).2.2).trans ?_
    exact (mediaVideoUpdate_preserves _ _ _).2

/-- A non-positive media duration leaves bitrate unset. -/
theorem extractMediaMetadata_bitrate_nonpos (f : FileHandle) (eff : Effects)
    (m : ExtendedMetadata) (info : MediaInfo) (h : eff.media = some info)
    (hd : ¬0 < info.duration) :
    (extractMediaMetadata f eff m).bitrate = m.bitrate := by
  unfold extractMediaMetadata
  rw [h]
  show (mediaBitrateUpdate f info
      (mediaVideoUpdate f info { m with duration := some info.duration })).bitrate = m.bitrate
  have hcond : ¬(info.duration ≠ 0 ∧ 0 < info.duration) := fun hc => hd hc.2
  have hb : ∀ x : ExtendedMetadata, mediaBitrateUpdate f info x = x := by
    intro x
    unfold mediaBitrateUpdate
    rw [if_neg hcond]
  rw [hb]
  exact (mediaVideoUpdate_preserves _ _ _).1.trans rfl

/-- A failed video condition leaves media dimensions unset. -/
theorem extractMediaMetadata_video_none (f : FileHandle) (eff : Effects)
    (m : ExtendedMetadata) (info : MediaInfo) (h : eff.media = some info)
    (hv : ¬(strStartsWith f.type "video/" && decide (0 < info.videoWidth)) = true) :
    (extractMediaMetadata f eff m).dimensions = m.dimensions ∧
      (extractMediaMetadata f eff m).aspectRatioStr = m.aspectRatioStr := by
  unfold extractMediaMetadata
  rw [h]
  show (mediaBitrateUpdate f info
        (mediaVideoUpdate f info { m with duration := some info.duration })).dimensions =
      m.dimensions ∧
    (mediaBitrateUpdate f info
        (mediaVideoUpdate f info { m with duration := some info.duration })).aspectRatioStr =
      m.aspectRatioStr
  have h2 : mediaVideoUpdate f info { m with duration := some info.duration } =
      { m with duration := some info.duration } := by
    unfold mediaVideoUpdate
    rw [if_neg hv]
  rw [h2]
  have h1 := mediaBitrateUpdate_preserves f info
    ({ m with duration := some info.duration } : ExtendedMetadata)
  exact ⟨h1.1, h1.2.1⟩

/-- A failed read leaves the record unchanged in the PDF extractor. -/
theorem extractPDFMetadata_readFail (f : FileHandle) (eff : Effects) (m : ExtendedMetadata)
    (h : eff.readOk = false) : extractPDFMetadata f eff m = m := by
  unfold extractPDFMetadata
  rw [h]
  rfl

/-- The /Title stage preserves fileSignature. -/
theorem pdfTitleUpdate_fileSignature (info : List Char) (m : ExtendedMetadata) :
    (pdfTitleUpdate info m).fileSignature = m.fileSignature := by
  rw [pdfTitleUpdate_def]

/-- The /Author stage preserves fileSignature. -/
theorem pdfAuthorUpdate_fileSignature (info : List Char) (m : ExtendedMetadata) :
    (pdfAuthorUpdate info m).fileSignature = m.fileSignature := by
  rw [pdfAuthorUpdate_def]

/-- The /Keywords stage preserves fileSignature. -/
theorem pdfKeywordsUpdate_fileSignature (info : List Char) (m : ExtendedMetadata) :
    (pdfKeywordsUpdate info m).fileSignature = m.fileSignature := by
  rw [pdfKeywordsUpdate_def]

/-- The page-count stage preserves fileSignature. -/
theorem pdfPagesUpdate_fileSignature (pages : Nat) (m : ExtendedMetadata) :
    (pdfPagesUpdate pages m).fileSignature = m.fileSignature := by
  rw [pdfPagesUpdate_def]

/-- The PDF extractor preserves fileSignature. -/
theorem extractPDFMetadata_fileSignature (f : FileHandle) (eff : Effects)
    (m : ExtendedMetadata) :
    (extractPDFMetadata f eff m).fileSignature = m.fileSignature := by
  unfold extractPDFMetadata
  cases h : eff.readOk with
  | false => rfl
  | true =>
    show (pdfPagesUpdate _ (pdfInfoUpdate _ m)).fileSignature = m.fileSignature
    refine (pdfPagesUpdate_fileSignature _ _).trans ?_
    unfold pdfInfoUpdate
    cases findInfoBlock (decodeLatin1 f.bytes) with
    | none => rfl
    | some info =>
      refine (pdfKeywordsUpdate_fileSignature _ _).trans ?_
      refine (pdfAuthorUpdate_fileSignature _ _).trans ?_
      exact pdfTitleUpdate_fileSignature _ _

/-- A failed text decode leaves the record unchanged. -/
theorem extractTextMetadata_none (eff : Effects) (m : ExtendedMetadata)
    (h : eff.textContent = none) : extractTextMetadata eff m = m := by
  unfold extractTextMetadata
  rw [h]

/-- The text extractor preserves fileSignature. -/
theorem extractTextMetadata_fileSignature (eff : Effects) (m : ExtendedMetadata) :
    (extractTextMetadata eff m).fileSignature = m.fileSignature := by
  unfold extractTextMetadata
  cases eff.textContent <;> rfl

/-- The archive extractor preserves fileSignature. -/
theorem extractArchiveMetadata_fileSignature (f : FileHandle) (eff : Effects)
    (m : ExtendedMetadata) :
    (extractArchiveMetadata f eff m).fileSignature = m.fileSignature := by
  unfold extractArchiveMetadata
  split_ifs <;> try rfl
  by_cases hz : 0 < zipUncompressedSize f.bytes <;> simp [hz]

/-- The compression-ratio field after the archive extractor: set exactly
when the read succeeded, the buffer carries the 4-byte ZIP magic and the
walked uncompressed total is positive; otherwise the previous value. -/
theorem extractArchiveMetadata_ratio (f : FileHandle) (eff : Effects) (m : ExtendedMetadata) :
    (extractArchiveMetadata f eff m).compressionRatioVal =
      if eff.readOk = true ∧ 4 ≤ f.bytes.length ∧ readU32 f.bytes 0 = 0x04034b50 ∧
          0 < zipUncompressedSize f.bytes then
        some (round2Q ((f.size : ℚ) / (zipUncompressedSize f.bytes : ℚ)))
      else m.compressionRatioVal := by
  unfold extractArchiveMetadata
  split_ifs with h1 h2 h3 h4 h5 <;> simp_all

/-- When the first 4 bytes are not the ZIP magic (or fewer than 4 bytes
exist), the archive extractor returns the record unchanged. -/
theorem extractArchiveMetadata_noMagic (f : FileHandle) (eff : Effects) (m : ExtendedMetadata)
    (h : ¬(4 ≤ f.bytes.length ∧ readU32 f.bytes 0 = 0x04034b50)) :
    extractArchiveMetadata f eff m = m := by
  unfold extractArchiveMetadata
  split_ifs with h1 h2 h3 _hz <;> first
    | rfl
    | exact absurd ⟨h2, h3⟩ h

/-- Agreement on the fields no extractor ever assigns plus the file
signature. -/
def coreAgree (a b : ExtendedMetadata) : Prop :=
  a.sampleRate = b.sampleRate ∧ a.channels = b.channels ∧ a.codec = b.codec ∧
  a.architecture = b.architecture ∧ a.fileSignature = b.fileSignature

/-- Transitivity of coreAgree. -/
theorem coreAgree_trans {a b c : ExtendedMetadata} :
    coreAgree a b → coreAgree b c → coreAgree a c :=
  fun h1 h2 => ⟨h1.1.trans h2.1, h1.2.1.trans h2.2.1, h1.2.2.1.trans h2.2.2.1,
    h1.2.2.2.1.trans h2.2.2.2.1, h1.2.2.2.2.trans h2.2.2.2.2⟩

/-- imageUntouched implies coreAgree. -/
theorem imageUntouched_core {a b : ExtendedMetadata} (h : imageUntouched a b) :
    coreAgree a b :=
  ⟨h.2.2.1, h.2.2.2.1, h.2.2.2.2.1, h.2.2.2.2.2.2.2.2.2.2.2.2.2,
    h.2.2.2.2.2.2.2.2.2.2.2.2.1⟩

/-- The media extractor only writes media fields. -/
theorem extractMediaMetadata_core (f : FileHandle) (eff : Effects) (m : ExtendedMetadata) :
    coreAgree (extractMediaMetadata f eff m) m := by
  unfold extractMediaMetadata
  cases eff.media with
  | none => exact ⟨rfl, rfl, rfl, rfl, rfl⟩
  | some info =>
    show coreAgree (mediaBitrateUpdate f info
      (mediaVideoUpdate f info { m with duration := some info.duration })) m
    rw [mediaBitrateUpdate_def, mediaVideoUpdate_def]
    exact ⟨rfl, rfl, rfl, rfl, rfl⟩

/-- The /Info stage only writes authorship fields. -/
theorem pdfInfoUpdate_core (blk : Option (List Char)) (m : ExtendedMetadata) :
    coreAgree (pdfInfoUpdate blk m) m := by
  unfold pdfInfoUpdate
  cases blk with
  | none => exact ⟨rfl, rfl, rfl, rfl, rfl⟩
  | some info =>
    show coreAgree (pdfKeywordsUpdate info (pdfAuthorUpdate info (pdfTitleUpdate info m))) m
    rw [pdfKeywordsUpdate_def, pdfAuthorUpdate_def, pdfTitleUpdate_def]
    exact ⟨rfl, rfl, rfl, rfl, rfl⟩

/-- The page-count stage only writes pageCount. -/
theorem pdfPagesUpdate_core (pages : Nat) (m : ExtendedMetadata) :
    coreAgree (pdfPagesUpdate pages m) m := by
  rw [pdfPagesUpdate_def]
  exact ⟨rfl, rfl, rfl, rfl, rfl⟩

/-- The PDF extractor only writes document fields. -/
theorem extractPDFMetadata_core (f : FileHandle) (eff : Effects) (m : ExtendedMetadata) :
    coreAgree (extractPDFMetadata f eff m) m := by
  unfold extractPDFMetadata
  cases h : eff.readOk with
  | false => exact ⟨rfl, rfl, rfl, rfl, rfl⟩
  | true =>
    have h1 := pdfPagesUpdate_core
      (countTypePage (decodeLatin1 f.bytes).length (decodeLatin1 f.bytes))
      (pdfInfoUpdate (findInfoBlock (decodeLatin1 f.bytes)) m)
    have h2 := pdfInfoUpdate_core (findInfoBlock (decodeLatin1 f.bytes)) m
    exact coreAgree_trans (coreAgree_trans ⟨rfl, rfl, rfl, rfl, rfl⟩ h1) h2

/-- The text extractor only writes text fields. -/
theorem extractTextMetadata_core (eff : Effects) (m : ExtendedMetadata) :
    coreAgree (extractTextMetadata eff m) m := by
  unfold extractTextMetadata
  cases eff.textContent <;> exact ⟨rfl, rfl, rfl, rfl, rfl⟩

/-- The archive extractor only writes the compression ratio. -/
theorem extractArchiveMetadata_core (f : FileHandle) (eff : Effects) (m : ExtendedMetadata) :
    coreAgree (extractArchiveMetadata f eff m) m := by
  unfold extractArchiveMetadata
  split_ifs <;> try exact ⟨rfl, rfl, rfl, rfl, rfl⟩
  by_cases hz : 0 < zipUncompressedSize f.bytes <;> simp [hz, coreAgree]

/-- The format stage never assigns the core fields. -/
theorem formatStage_core (f : FileHandle) (eff : Effects) (m : ExtendedMetadata) :
    coreAgree (formatStage f eff m) m := by
  unfold formatStage
  cases hc : classifyFormat f.type f.name with
  | none => exact ⟨rfl, rfl, rfl, rfl, rfl⟩
  | some k =>
    cases k with
    | image => exact imageUntouched_core (extractImageMetadata_untouched eff m)
    | media => exact extractMediaMetadata_core f eff m
    | document => exact extractPDFMetadata_core f eff m
    | text => exact extractTextMetadata_core eff m
    | archive => exact extractArchiveMetadata_core f eff m

/-- When no format-specific extractor is selected, the format stage is
the identity. -/
theorem formatStage_none (f : FileHandle) (eff : Effects) (m : ExtendedMetadata)
    (hc : classifyFormat f.type f.name = none) : formatStage f eff m = m := by
  unfold formatStage
  rw [hc]

/-- The format stage for an image file. -/
theorem formatStage_image (f : FileHandle) (eff : Effects) (m : ExtendedMetadata)
    (hc : classifyFormat f.type f.name = some FormatKind.image) :
    formatStage f eff m = extractImageMetadata eff m := by
  unfold formatStage
  rw [hc]

/-- The format stage for a media file. -/
theorem formatStage_media (f : FileHandle) (eff : Effects) (m : ExtendedMetadata)
    (hc : classifyFormat f.type f.name = some FormatKind.media) :
    formatStage f eff m = extractMediaMetadata f eff m := by
  unfold formatStage
  rw [hc]

/-- The format stage for a PDF file. -/
theorem formatStage_document (f : FileHandle) (eff : Effects) (m : ExtendedMetadata)
    (hc : classifyFormat f.type f.name = some FormatKind.document) :
    formatStage f eff m = extractPDFMetadata f eff m := by
  unfold formatStage
  rw [hc]

/-- The format stage for a text file. -/
theorem formatStage_text (f : FileHandle) (eff : Effects) (m : ExtendedMetadata)
    (hc : classifyFormat f.type f.name = some FormatKind.text) :
    formatStage f eff m = extractTextMetadata eff m := by
  unfold formatStage
  rw [hc]

/-- The format stage for an archive file. -/
theorem formatStage_archive (f : FileHandle) (eff : Effects) (m : ExtendedMetadata)
    (hc : classifyFormat f.type f.name = some FormatKind.archive) :
    formatStage f eff m = extractArchiveMetadata f eff m := by
  unfold formatStage
  rw [hc]

/-- The universal analyzer fields of the assembled record. -/
theorem extractMetadata_univ (digest : String → Bytes → Bytes) (f : FileHandle)
    (eff : Effects) :
    (extractMetadata digest f eff).checksum =
      some (calculateChecksum digest eff.readOk eff.digestOk "SHA-256" f.bytes) ∧
    (extractMetadata digest f eff).md5 =
      some (calculateChecksum digest eff.readOk eff.digestOk "MD5" f.bytes) ∧
    (extractMetadata digest f eff).entropy =
      some (if eff.readOk then calculateEntropyBytes f.size f.bytes else 0) ∧
    (extractMetadata digest f eff).isExecutable = some (isExecutableFile f.name) ∧
    (extractMetadata digest f eff).isEncrypted = some (detectEncryption f eff) ∧
    (extractMetadata digest f eff).hasMetadata = some (hasEmbeddedMetadata f eff) ∧
    (extractMetadata digest f eff).processingTime =
      some (round2Q (eff.endTime - eff.startTime)) :=
  ⟨rfl, rfl, rfl, rfl, rfl, rfl, rfl⟩

/-- The file signature of the assembled record. -/
theorem extractMetadata_fileSignature (digest : String → Bytes → Bytes) (f : FileHandle)
    (eff : Effects) :
    (extractMetadata digest f eff).fileSignature = some (getFileSignature f eff) :=
  ((formatStage_core f eff (baseRecord f eff)).2.2.2.2).trans rfl

/-- The never-assigned interface fields of the assembled record. -/
theorem extractMetadata_never (digest : String → Bytes → Bytes) (f : FileHandle)
    (eff : Effects) :
    (extractMetadata digest f eff).sampleRate = none ∧
    (extractMetadata digest f eff).channels = none ∧
    (extractMetadata digest f eff).codec = none ∧
    (extractMetadata digest f eff).architecture = none :=
  ⟨((formatStage_core f eff (baseRecord f eff)).1).trans rfl,
    ((formatStage_core f eff (baseRecord f eff)).2.1).trans rfl,
    ((formatStage_core f eff (baseRecord f eff)).2.2.1).trans rfl,
    ((formatStage_core f eff (baseRecord f eff)).2.2.2.1).trans rfl⟩

/-- Absence of every format-populated optional field. -/
def formatFieldsAbsent (r : ExtendedMetadata) : Prop :=
  r.dimensions = none ∧ r.exifData = none ∧ r.colorDepth = none ∧ r.hasAlpha = none ∧
  r.aspectRatioStr = none ∧ r.dpi = none ∧ r.duration = none ∧ r.bitrate = none ∧
  r.pageCount = none ∧ r.wordCount = none ∧ r.characterCount = none ∧ r.lineCount = none ∧
  r.compressionRatioVal = none ∧ r.encoding = none ∧ r.language = none ∧
  r.creator = none ∧ r.subject = none ∧ r.keywords = none

/-- A concrete stand-in for the external digest primitive, used by the
witnesses below. -/
def sampleDigest : String → Bytes → Bytes := fun _ _ => [171, 205]

/-- A concrete file of unclassified MIME type. -/
def sampleFile : FileHandle := ⟨"report.bin", "application/octet-stream", 0, [1, 2, 3]⟩

/-- A second concrete file with the same bytes but different name, MIME
type and timestamp. -/
def sampleFileB : FileHandle := ⟨"other.data", "x-custom/blob", 99, [1, 2, 3]⟩

/-- An empty EXIF dictionary. -/
def emptyExif : ExifTags := ⟨[], none, none, none, none, none⟩

/-- Effect outcomes with every external operation succeeding and every
decode yielding nothing. -/
def okEffects : Effects := ⟨true, true, none, emptyExif, none, none, none, 0, 0⟩

/-- Effect outcomes with every read and the digest failing. -/
def failEffects : Effects := ⟨false, false, none, emptyExif, none, none, none, 0, 0⟩

/-- C1: the md5 field of the returned record is not MD5: whenever the
read and digest succeed it equals the lowercase hexadecimal rendering of
the external digest primitive invoked with the label "SHA-1" - the
dispatch of calculateChecksum maps the requested "MD5" label to "SHA-1"
(line 361, "Fallback to SHA-1"), never to "MD5". -/
theorem C1_md5_field_is_sha1 :
    (∀ (digest : String → Bytes → Bytes) (f : FileHandle) (eff : Effects),
      eff.readOk = true → eff.digestOk = true →
      (extractMetadata digest f eff).md5 =
        some (bytesToHexLower (digest "SHA-1" f.bytes))) ∧
    hashAlgorithmUsed "MD5" = "SHA-1" ∧ hashAlgorithmUsed "MD5" ≠ "MD5" := by
  refine ⟨?_, rfl, by decide⟩
  intro digest f eff h1 h2
  simp [extractMetadata, calculateChecksum, h1, h2]

/-- Witness for C1 at a concrete digest primitive, file and effects. -/
theorem C1_md5_field_is_sha1_witness :
    (extractMetadata sampleDigest sampleFile okEffects).md5 =
      some (bytesToHexLower (sampleDigest "SHA-1" sampleFile.bytes)) :=
  C1_md5_field_is_sha1.1 sampleDigest sampleFile okEffects rfl rfl

/-- Membership of every rendered character in the lowercase hex
alphabet, for one digit. -/
theorem hexDigit_mem (n : Nat) (h : n < 16) :
    hexDigit n ∈ "0123456789abcdef".data := by
  interval_cases n <;> decide

/-- Membership of every rendered character in the lowercase hex
alphabet, for one byte. -/
theorem byteToHexLower_mem (b : Nat) (hb : b < 256) :
    ∀ c ∈ (byteToHexLower b).data, c ∈ "0123456789abcdef".data := by
  intro c hc
  rw [byteToHexLower] at hc
  by_cases h16 : b < 16
  · rw [if_pos h16] at hc
    rcases List.mem_cons.mp hc with h | h
    · rw [h]; decide
    · rw [List.mem_singleton.mp h]
      exact hexDigit_mem b h16
  · rw [if_neg h16] at hc
    rcases List.mem_cons.mp hc with h | h
    · rw [h]
      exact hexDigit_mem _ (Nat.div_lt_of_lt_mul (by omega))
    · rw [List.mem_singleton.mp h]
      exact hexDigit_mem _ (Nat.mod_lt _ (by omega))

/-- C6: the SHA-256 checksum is pure, deterministic and
content-addressed: under the same digest primitive and effect outcomes,
files with identical byte buffers get identical checksum fields whatever
their names, declared MIME types and timestamps; on success the field is
exactly the lowercase hexadecimal rendering of the digest of the full
buffer, and that rendering uses only lowercase hexadecimal characters. -/
theorem C6_sha256_content_addressed :
    (∀ (digest : String → Bytes → Bytes) (eff : Effects) (f g : FileHandle),
      f.bytes = g.bytes →
      (extractMetadata digest f eff).checksum = (extractMetadata digest g eff).checksum) ∧
    (∀ (digest : String → Bytes → Bytes) (eff : Effects) (f : FileHandle),
      eff.readOk = true → eff.digestOk = true →
      (extractMetadata digest f eff).checksum =
        some (bytesToHexLower (digest "SHA-256" f.bytes))) ∧
    (∀ bs : Bytes, (∀ b ∈ bs, b < 256) →
      ∀ c ∈ (bytesToHexLower bs).data, c ∈ "0123456789abcdef".data) := by
  refine ⟨?_, ?_, ?_⟩
  · intro digest eff f g hfg
    simp [extractMetadata, calculateChecksum, hfg]
  · intro digest eff f h1 h2
    simp [extractMetadata, calculateChecksum, h1, h2]
  · intro bs
    induction bs with
    | nil => intro _ c hc; cases hc
    | cons b rest ih =>
      intro hlt c hc
      rw [bytesToHexLower, String.data_append] at hc
      rcases List.mem_append.mp hc with h | h
      · exact byteToHexLower_mem b (hlt b (List.mem_cons_self b rest)) c h
      · exact ih (fun x hx => hlt x (List.mem_cons_of_mem b hx)) c h

/-- Witness for C6: two files with equal bytes, different identities. -/
theorem C6_sha256_content_addressed_witness :
    sampleFile.bytes = sampleFileB.bytes ∧
      (extractMetadata sampleDigest sampleFile okEffects).checksum =
        (extractMetadata sampleDigest sampleFileB okEffects).checksum :=
  ⟨rfl, C6_sha256_content_addressed.1 sampleDigest okEffects sampleFile sampleFileB rfl⟩

/-- C2 counterexample: with the byte-buffer read failing, the digest and
entropy computations fail, yet the checksum field of the returned record
is not absent but present with the synthesized empty string, and the
entropy field is present with the synthesized 0. -/
theorem C2_placeholder_counterexample :
    failEffects.readOk = false ∧
      (extractMetadata sampleDigest sampleFile failEffects).checksum = some "" ∧
      (extractMetadata sampleDigest sampleFile failEffects).entropy = some 0 := by
  refine ⟨rfl, ?_, ?_⟩
  · rw [(extractMetadata_univ sampleDigest sampleFile failEffects).1]
    rfl
  · rw [(extractMetadata_univ sampleDigest sampleFile failEffects).2.2.1]
    rfl

/-- C2 amended: the absence invariant holds for the format-specific
fields - each is absent when its extractor did not run or the
corresponding stage failed - but not for the universal analyzers: the
digest, entropy, executable, encryption, embedded-metadata, signature
and processing-time fields are always present, and on failure the code
substitutes synthesized defaults: the empty string for both digests and
the signature, 0 for the entropy, false for the encryption flag. -/
theorem C2_absence_amended :
    ∀ (digest : String → Bytes → Bytes) (f : FileHandle) (eff : Effects)
      (r : ExtendedMetadata), r = extractMetadata digest f eff →
      ((r.checksum.isSome ∧ r.md5.isSome ∧ r.entropy.isSome ∧ r.isExecutable.isSome ∧
        r.isEncrypted.isSome ∧ r.hasMetadata.isSome ∧ r.fileSignature.isSome ∧
        r.processingTime.isSome) ∧
      (eff.readOk = false →
        r.checksum = some "" ∧ r.md5 = some "" ∧ r.entropy = some 0 ∧
        r.fileSignature = some "" ∧ r.isEncrypted = some false) ∧
      (r.sampleRate = none ∧ r.channels = none ∧ r.codec = none ∧ r.architecture = none) ∧
      (classifyFormat f.type f.name = none → formatFieldsAbsent r) ∧
      (classifyFormat f.type f.name = some FormatKind.image →
        (eff.imageDims = none → r.dimensions = none ∧ r.aspectRatioStr = none) ∧
        (eff.pixels = none → r.hasAlpha = none ∧ r.colorDepth = none) ∧
        r.duration = none ∧ r.bitrate = none ∧ r.pageCount = none ∧ r.wordCount = none ∧
        r.characterCount = none ∧ r.lineCount = none ∧ r.compressionRatioVal = none ∧
        r.encoding = none ∧ r.language = none) ∧
      (classifyFormat f.type f.name = some FormatKind.media →
        (eff.media = none → r.duration = none ∧ r.bitrate = none ∧ r.dimensions = none ∧
          r.aspectRatioStr = none) ∧
        (∀ info, eff.media = some info → ¬0 < info.duration → r.bitrate = none)) ∧
      (classifyFormat f.type f.name = some FormatKind.document → eff.readOk = false →
        r.pageCount = none ∧ r.wordCount = none ∧ r.characterCount = none ∧
        r.creator = none ∧ r.subject = none ∧ r.keywords = none) ∧
      (classifyFormat f.type f.name = some FormatKind.text → eff.textContent = none →
        r.wordCount = none ∧ r.characterCount = none ∧ r.lineCount = none ∧
        r.encoding = none ∧ r.language = none) ∧
      (classifyFormat f.type f.name = some FormatKind.archive →
        (eff.readOk = false ∨ zipUncompressedSize f.bytes = 0) →
        r.compressionRatioVal = none)) := by
  intro digest f eff r hr
  obtain ⟨hck, hmd, hen, hex, hencr, hmeta, hpt⟩ := extractMetadata_univ digest f eff
  have hfs := extractMetadata_fileSignature digest f eff
  obtain ⟨hn1, hn2, hn3, hn4⟩ := extractMetadata_never digest f eff
  subst hr
  refine ⟨⟨?_, ?_, ?_, ?_, ?_, ?_, ?_, ?_⟩, ?_, ⟨hn1, hn2, hn3, hn4⟩, ?_, ?_, ?_, ?_, ?_, ?_⟩
  · rw [hck]; rfl
  · rw [hmd]; rfl
  · rw [hen]; rfl
  · rw [hex]; rfl
  · rw [hencr]; rfl
  · rw [hmeta]; rfl
  · rw [hfs]; rfl
  · rw [hpt]; rfl
  · intro h
    refine ⟨?_, ?_, ?_, ?_, ?_⟩
    · rw [hck]
      simp [calculateChecksum, h]
    · rw [hmd]
      simp [calculateChecksum, h]
    · rw [hen, h]
      simp
    · rw [hfs]
      simp [getFileSignature, h]
    · rw [hencr]
      simp [detectEncryption, h]
  · intro hc
    have h := formatStage_none f eff (baseRecord f eff) hc
    exact ⟨(congrArg ExtendedMetadata.dimensions h).trans rfl,
      (congrArg ExtendedMetadata.exifData h).trans rfl,
      (congrArg ExtendedMetadata.colorDepth h).trans rfl,
      (congrArg ExtendedMetadata.hasAlpha h).trans rfl,
      (congrArg ExtendedMetadata.aspectRatioStr h).trans rfl,
      (congrArg ExtendedMetadata.dpi h).trans rfl,
      (congrArg ExtendedMetadata.duration h).trans rfl,
      (congrArg ExtendedMetadata.bitrate h).trans rfl,
      (congrArg ExtendedMetadata.pageCount h).trans rfl,
      (congrArg ExtendedMetadata.wordCount h).trans rfl,
      (congrArg ExtendedMetadata.characterCount h).trans rfl,
      (congrArg ExtendedMetadata.lineCount h).trans rfl,
      (congrArg ExtendedMetadata.compressionRatioVal h).trans rfl,
      (congrArg ExtendedMetadata.encoding h).trans rfl,
      (congrArg ExtendedMetadata.language h).trans rfl,
      (congrArg ExtendedMetadata.creator h).trans rfl,
      (congrArg ExtendedMetadata.subject h).trans rfl,
      (congrArg ExtendedMetadata.keywords h).trans rfl⟩
  · intro hc
    have h := formatStage_image f eff (baseRecord f eff) hc
    obtain ⟨hd, hb, _, _, _, hpc, hwc, hcc, hlc, hcr, henc2, hla, _, _⟩ :=
      extractImageMetadata_untouched eff (baseRecord f eff)
    refine ⟨?_, ?_, ?_, ?_, ?_, ?_, ?_, ?_, ?_, ?_, ?_⟩
    · intro h0
      have hda := extractImageMetadata_dims_none eff (baseRecord f eff) h0
      exact ⟨((congrArg ExtendedMetadata.dimensions h).trans hda.1).trans rfl,
        ((congrArg ExtendedMetadata.aspectRatioStr h).trans hda.2).trans rfl⟩
    · intro h0
      have hal := extractImageMetadata_alpha_none eff (baseRecord f eff) h0
      exact ⟨((congrArg ExtendedMetadata.hasAlpha h).trans hal.1).trans rfl,
        ((congrArg ExtendedMetadata.colorDepth h).trans hal.2).trans rfl⟩
    · exact ((congrArg ExtendedMetadata.duration h).trans hd).trans rfl
    · exact ((congrArg ExtendedMetadata.bitrate h).trans hb).trans rfl
    · exact ((congrArg ExtendedMetadata.pageCount h).trans hpc).trans rfl
    · exact ((congrArg ExtendedMetadata.wordCount h).trans hwc).trans rfl
    · exact ((congrArg ExtendedMetadata.characterCount h).trans hcc).trans rfl
    · exact ((congrArg ExtendedMetadata.lineCount h).trans hlc).trans rfl
    · exact ((congrArg ExtendedMetadata.compressionRatioVal h).trans hcr).trans rfl
    · exact ((congrArg ExtendedMetadata.encoding h).trans henc2).trans rfl
    · exact ((congrArg ExtendedMetadata.language h).trans hla).trans rfl
  · intro hc
    have h := formatStage_media f eff (baseRecord f eff) hc
    constructor
    · intro h0
      have hid := extractMediaMetadata_none f eff (baseRecord f eff) h0
      have h2 := h.trans hid
      exact ⟨(congrArg ExtendedMetadata.duration h2).trans rfl,
        (congrArg ExtendedMetadata.bitrate h2).trans rfl,
        (congrArg ExtendedMetadata.dimensions h2).trans rfl,
        (congrArg ExtendedMetadata.aspectRatioStr h2).trans rfl⟩
    · intro info hmi hdur
      have hb := extractMediaMetadata_bitrate_nonpos f eff (baseRecord f eff) info hmi hdur
      exact ((congrArg ExtendedMetadata.bitrate h).trans hb).trans rfl
  · intro hc h0
    have h := (formatStage_document f eff (baseRecord f eff) hc).trans
      (extractPDFMetadata_readFail f eff (baseRecord f eff) h0)
    exact ⟨(congrArg ExtendedMetadata.pageCount h).trans rfl,
      (congrArg ExtendedMetadata.wordCount h).trans rfl,
      (congrArg ExtendedMetadata.characterCount h).trans rfl,
      (congrArg ExtendedMetadata.creator h).trans rfl,
      (congrArg ExtendedMetadata.subject h).trans rfl,
      (congrArg ExtendedMetadata.keywords h).trans rfl⟩
  · intro hc h0
    have h := (formatStage_text f eff (baseRecord f eff) hc).trans
      (extractTextMetadata_none eff (baseRecord f eff) h0)
    exact ⟨(congrArg ExtendedMetadata.wordCount h).trans rfl,
      (congrArg ExtendedMetadata.characterCount h).trans rfl,
      (congrArg ExtendedMetadata.lineCount h).trans rfl,
      (congrArg ExtendedMetadata.encoding h).trans rfl,
      (congrArg ExtendedMetadata.language h).trans rfl⟩
  · intro hc h0
    have h := formatStage_archive f eff (baseRecord f eff) hc
    have hr2 := extractArchiveMetadata_ratio f eff (baseRecord f eff)
    have hcond : ¬(eff.readOk = true ∧ 4 ≤ f.bytes.length ∧
        readU32 f.bytes 0 = 0x04034b50 ∧ 0 < zipUncompressedSize f.bytes) := by
      rcases h0 with h0 | h0
      · intro hcc
        rw [h0] at hcc
        exact Bool.false_ne_true hcc.1
      · intro hcc
        rw [h0] at hcc
        exact Nat.lt_irrefl 0 hcc.2.2.2
    rw [if_neg hcond] at hr2
    exact ((congrArg ExtendedMetadata.compressionRatioVal h).trans hr2).trans rfl

/-- Witness for C2 at a concrete digest primitive, file and effects with
a failing read. -/
theorem C2_absence_amended_witness :
    (extractMetadata sampleDigest sampleFile failEffects).checksum.isSome = true ∧
      (extractMetadata sampleDigest sampleFile failEffects).checksum = some "" := by
  have h := C2_absence_amended sampleDigest sampleFile failEffects
    (extractMetadata sampleDigest sampleFile failEffects) rfl
  exact ⟨h.1.1, (h.2.1 rfl).1⟩

/-- C3 counterexample: with every byte-buffer read failing, extract does
not surface a terminal failure: it still returns an assembled record, in
which the signature has degraded to the empty string. -/
theorem C3_fatal_counterexample :
    failEffects.readOk = false ∧
      extract sampleDigest sampleFile failEffects =
        Except.ok (extractMetadata sampleDigest sampleFile failEffects) ∧
      (extractMetadata sampleDigest sampleFile failEffects).fileSignature = some "" := by
  refine ⟨rfl, rfl, ?_⟩
  rw [extractMetadata_fileSignature]
  rfl

/-- C3 amended: extraction never surfaces a terminal failure: for every
digest primitive, file and effect outcome the pipeline returns an
assembled record (each stage catches its own failure), an unreadable
buffer merely degrades the signature, digests and entropy to defaults,
and a decode failure at a format stage leaves that stage's fields
absent. -/
theorem C3_never_fatal_amended :
    ∀ (digest : String → Bytes → Bytes) (f : FileHandle) (eff : Effects),
      extract digest f eff = Except.ok (extractMetadata digest f eff) ∧
      (eff.readOk = false →
        (extractMetadata digest f eff).fileSignature = some "" ∧
        (extractMetadata digest f eff).checksum = some "" ∧
        (extractMetadata digest f eff).md5 = some "" ∧
        (extractMetadata digest f eff).entropy = some 0) ∧
      (classifyFormat f.type f.name = some FormatKind.media → eff.media = none →
        (extractMetadata digest f eff).duration = none) ∧
      (classifyFormat f.type f.name = some FormatKind.image → eff.imageDims = none →
        (extractMetadata digest f eff).dimensions = none) := by
  intro digest f eff
  obtain ⟨hck, hmd, hen, _, _, _, _⟩ := extractMetadata_univ digest f eff
  refine ⟨rfl, ?_, ?_, ?_⟩
  · intro h
    refine ⟨?_, ?_, ?_, ?_⟩
    · rw [extractMetadata_fileSignature]
      simp [getFileSignature, h]
    · rw [hck]
      simp [calculateChecksum, h]
    · rw [hmd]
      simp [calculateChecksum, h]
    · rw [hen, h]
      simp
  · intro hc h0
    have h := (formatStage_media f eff (baseRecord f eff) hc).trans
      (extractMediaMetadata_none f eff (baseRecord f eff) h0)
    exact (congrArg ExtendedMetadata.duration h).trans rfl
  · intro hc h0
    have h := formatStage_image f eff (baseRecord f eff) hc
    have hda := extractImageMetadata_dims_none eff (baseRecord f eff) h0
    exact ((congrArg ExtendedMetadata.dimensions h).trans hda.1).trans rfl

/-- Witness for C3 at a concrete digest primitive, file and failing
effects. -/
theorem C3_never_fatal_amended_witness :
    extract sampleDigest sampleFile failEffects =
        Except.ok (extractMetadata sampleDigest sampleFile failEffects) ∧
      (extractMetadata sampleDigest sampleFile failEffects).checksum = some "" := by
  have h := C3_never_fatal_amended sampleDigest sampleFile failEffects
  exact ⟨h.1, (h.2.1 rfl).2.1⟩

/-- C8: a buffer whose first 4 bytes are not the ZIP local-file-header
magic (including buffers shorter than 4 bytes, whose DataView read
throws and is caught) leaves the record unchanged - no compression-ratio
field and no error; when the magic matches, the ratio is present if and
only if the accumulated uncompressed size of the header walk is
positive, and then equals fileSize / totalUncompressedSize rounded to 2
decimals. -/
theorem C8_archive_ratio :
    (∀ (f : FileHandle) (eff : Effects) (m : ExtendedMetadata),
      eff.readOk = true → ¬(4 ≤ f.bytes.length ∧ readU32 f.bytes 0 = 0x04034b50) →
      extractArchiveMetadata f eff m = m) ∧
    (∀ (f : FileHandle) (eff : Effects) (m : ExtendedMetadata),
      eff.readOk = true → 4 ≤ f.bytes.length → readU32 f.bytes 0 = 0x04034b50 →
      m.compressionRatioVal = none →
      (((extractArchiveMetadata f eff m).compressionRatioVal ≠ none) ↔
        0 < zipUncompressedSize f.bytes) ∧
      (0 < zipUncompressedSize f.bytes →
        (extractArchiveMetadata f eff m).compressionRatioVal =
          some (round2Q ((f.size : ℚ) / (zipUncompressedSize f.bytes : ℚ))))) := by
  constructor
  · intro f eff m _ h
    exact extractArchiveMetadata_noMagic f eff m h
  · intro f eff m h1 h2 h3 h4
    have hr := extractArchiveMetadata_ratio f eff m
    constructor
    · constructor
      · intro hne
        by_contra hz
        rw [if_neg (fun hcc => hz hcc.2.2.2), h4] at hr
        exact hne hr
      · intro hz
        rw [if_pos ⟨h1, h2, h3, hz⟩] at hr
        rw [hr]
        exact Option.some_ne_none _
    · intro hz
      rw [if_pos ⟨h1, h2, h3, hz⟩] at hr
      exact hr

/-- Witness for C8 at a concrete non-ZIP buffer. -/
theorem C8_archive_ratio_witness :
    okEffects.readOk = true ∧
      ¬(4 ≤ sampleFile.bytes.length ∧ readU32 sampleFile.bytes 0 = 0x04034b50) ∧
      extractArchiveMetadata sampleFile okEffects (baseRecord sampleFile okEffects) =
        baseRecord sampleFile okEffects :=
  ⟨rfl, by decide,
    C8_archive_ratio.1 sampleFile okEffects (baseRecord sampleFile okEffects) rfl (by decide)⟩

/-- One step of detectLanguage's loop: keep the new language exactly
when its match count strictly exceeds the running maximum. -/
def selStep (p : Nat × String) (q : String × Nat) : Nat × String :=
  if p.1 < q.2 then (q.2, q.1) else p

/-- The whole selection loop over (language, matchCount) pairs. -/
def selFold (l : List (String × Nat)) (init : Nat × String) : Nat × String :=
  l.foldl selStep init

/-- The language match counts of a text, in evaluation order. -/
def languageScores (text : List Char) : List (String × Nat) :=
  languagePatterns.map (fun lp => (lp.1, languageScore lp.2 (languageSample text)))

/-- The first component of the selection loop is the running maximum of
the match counts. -/
theorem selFold_fst : ∀ (l : List (String × Nat)) (m : Nat) (d : String),
    (selFold l (m, d)).1 = (l.map Prod.snd).foldl Nat.max m := by
  intro l
  induction l with
  | nil => intro m d; rfl
  | cons q t ih =>
    intro m d
    show (selFold t (selStep (m, d) q)).1 = (t.map Prod.snd).foldl Nat.max (Nat.max m q.2)
    unfold selStep
    by_cases h : m < q.2
    · rw [if_pos h, ih]
      have hmx : Nat.max m q.2 = q.2 := Nat.max_eq_right (Nat.le_of_lt h)
      rw [hmx]
    · rw [if_neg h, ih]
      have hmx : Nat.max m q.2 = m := Nat.max_eq_left (Nat.le_of_not_lt h)
      rw [hmx]

/-- When no later count beats the running maximum, the kept language
never changes. -/
theorem selFold_snd_le : ∀ (l : List (String × Nat)) (m : Nat) (d : String),
    (∀ q ∈ l, q.2 ≤ m) → (selFold l (m, d)).2 = d := by
  intro l
  induction l with
  | nil => intro m d _; rfl
  | cons q t ih =>
    intro m d hle
    show (selFold t (selStep (m, d) q)).2 = d
    unfold selStep
    rw [if_neg (Nat.not_lt.mpr (hle q (List.mem_cons_self q t)))]
    exact ih m d (fun p hp => hle p (List.mem_cons_of_mem q hp))

/-- The initial accumulator never exceeds a Nat.max fold. -/
theorem le_foldl_max : ∀ (l : List Nat) (a : Nat), a ≤ l.foldl Nat.max a := by
  intro l
  induction l with
  | nil => intro a; exact Nat.le_refl a
  | cons b t ih => intro a; exact Nat.le_trans (Nat.le_max_left a b) (ih (Nat.max a b))

/-- Every member of the list is bounded by the Nat.max fold. -/
theorem mem_le_foldl_max : ∀ (l : List Nat) (a x : Nat), x ∈ l → x ≤ l.foldl Nat.max a := by
  intro l
  induction l with
  | nil => intro a x hx; cases hx
  | cons b t ih =>
    intro a x hx
    rcases List.mem_cons.mp hx with h | h
    · subst h
      exact Nat.le_trans (Nat.le_max_right a x) (le_foldl_max t (Nat.max a x))
    · exact ih (Nat.max a b) x h

/-- When some count strictly beats the initial maximum, the selection
loop returns the first language attaining the final maximum. -/
theorem selFold_snd_max : ∀ (l : List (String × Nat)) (m : Nat) (d : String),
    m < (l.map Prod.snd).foldl Nat.max m →
    ∃ q0, l.find? (fun q => q.2 == (l.map Prod.snd).foldl Nat.max m) = some q0 ∧
      (selFold l (m, d)).2 = q0.1 := by
  intro l
  induction l with
  | nil => intro m d h; exact absurd h (Nat.lt_irrefl m)
  | cons q t ih =>
    intro m d hm
    have hMdef : ((q :: t).map Prod.snd).foldl Nat.max m =
        (t.map Prod.snd).foldl Nat.max (Nat.max m q.2) := rfl
    by_cases hq : q.2 = ((q :: t).map Prod.snd).foldl Nat.max m
    · have hfind : (q :: t).find? (fun p =>
          p.2 == ((q :: t).map Prod.snd).foldl Nat.max m) = some q :=
        List.find?_cons_of_pos _ (beq_iff_eq.mpr hq)
      refine ⟨q, hfind, ?_⟩
      have hmq : m < q.2 := hq ▸ hm
      show (selFold t (selStep (m, d) q)).2 = q.1
      unfold selStep
      rw [if_pos hmq]
      apply selFold_snd_le
      intro p hp
      rw [hq]
      exact mem_le_foldl_max _ _ _
        (List.mem_map_of_mem Prod.snd (List.mem_cons_of_mem q hp))
    · have hq2 : q.2 ≤ ((q :: t).map Prod.snd).foldl Nat.max m :=
        mem_le_foldl_max _ _ _ (List.mem_map_of_mem Prod.snd (List.mem_cons_self q t))
      have hqlt : q.2 < ((q :: t).map Prod.snd).foldl Nat.max m := Nat.lt_of_le_of_ne hq2 hq
      have hfind : (q :: t).find? (fun p =>
          p.2 == ((q :: t).map Prod.snd).foldl Nat.max m) =
          t.find? (fun p => p.2 == ((q :: t).map Prod.snd).foldl Nat.max m) :=
        List.find?_cons_of_neg _ (fun hcc => hq (beq_iff_eq.mp hcc))
      show ∃ q0, _ ∧ (selFold t (selStep (m, d) q)).2 = q0.1
      unfold selStep
      by_cases h : m < q.2
      · rw [if_pos h]
        have hmax : Nat.max m q.2 = q.2 := Nat.max_eq_right (Nat.le_of_lt h)
        have hMt : ((q :: t).map Prod.snd).foldl Nat.max m =
            (t.map Prod.snd).foldl Nat.max q.2 := by rw [hMdef, hmax]
        have hlt : q.2 < (t.map Prod.snd).foldl Nat.max q.2 := by rw [← hMt]; exact hqlt
        obtain ⟨q0, hf, hs⟩ := ih q.2 q.1 hlt
        refine ⟨q0, ?_, hs⟩
        rw [hfind, hMt]
        exact hf
      · rw [if_neg h]
        have hmax : Nat.max m q.2 = m := Nat.max_eq_left (Nat.le_of_not_lt h)
        have hMt : ((q :: t).map Prod.snd).foldl Nat.max m =
            (t.map Prod.snd).foldl Nat.max m := by rw [hMdef, hmax]
        have hlt : m < (t.map Prod.snd).foldl Nat.max m := by rw [← hMt]; exact hm
        obtain ⟨q0, hf, hs⟩ := ih m d hlt
        refine ⟨q0, ?_, hs⟩
        rw [hfind, hMt]
        exact hf

/-- detectLanguage is the selection loop over the language scores. -/
theorem detectLanguage_eq_selFold (text : List Char) :
    detectLanguage text =
      if 3 < (selFold (languageScores text) (0, "Unknown")).1 then
        (selFold (languageScores text) (0, "Unknown")).2
      else "Unknown" := by
  unfold detectLanguage selFold languageScores
  rw [List.foldl_map]
  rfl

/-- A 1000-character sample consisting of the words "the", "and" and
"of". -/
def englishSample : List Char :=
  (List.replicate 90 ("the and of ".data)).flatten ++ "the and of".data

/-- A sample with no recognizable stop words. -/
def noStopSample : List Char := "zzz qqq xxx yyy".data

set_option maxRecDepth 100000 in
set_option maxHeartbeats 4000000 in
/-- English stop-word matches in the 1000-character sample. -/
theorem englishScore_sample :
    languageScore ["the", "and", "or", "but", "in", "on", "at", "to", "for", "of",
      "with", "by", "this", "that", "have", "has", "will", "would", "could", "should"]
      (languageSample englishSample) = 273 := by
  decide

set_option maxRecDepth 100000 in
set_option maxHeartbeats 4000000 in
/-- French stop-word matches in the 1000-character sample. -/
theorem frenchScore_sample :
    languageScore ["le", "la", "les", "de", "du", "des", "et", "ou", "mais", "dans",
      "sur", "pour", "avec", "ce", "cette", "avoir", "être", "sera", "serait"]
      (languageSample englishSample) = 0 := by
  decide

set_option maxRecDepth 100000 in
set_option maxHeartbeats 4000000 in
/-- German stop-word matches in the 1000-character sample. -/
theorem germanScore_sample :
    languageScore ["der", "die", "das", "und", "oder", "aber", "in", "auf", "zu",
      "für", "mit", "von", "haben", "sein", "wird", "würde", "könnte", "sollte"]
      (languageSample englishSample) = 0 := by
  decide

set_option maxRecDepth 100000 in
set_option maxHeartbeats 4000000 in
/-- Spanish stop-word matches in the 1000-character sample. -/
theorem spanishScore_sample :
    languageScore ["el", "la", "los", "las", "de", "del", "y", "o", "pero", "en",
      "sobre", "para", "con", "este", "esta", "tener", "ser", "será", "sería"]
      (languageSample englishSample) = 0 := by
  decide

set_option maxRecDepth 100000 in
set_option maxHeartbeats 4000000 in
/-- Italian stop-word matches in the 1000-character sample. -/
theorem italianScore_sample :
    languageScore ["il", "la", "lo", "gli", "le", "di", "del", "e", "o", "ma", "in",
      "su", "per", "con", "questo", "questa", "avere", "essere", "sarà"]
      (languageSample englishSample) = 0 := by
  decide

/-- The score table of the 1000-character sample. -/
theorem languageScores_englishSample :
    languageScores englishSample =
      [("English", 273), ("French", 0), ("German", 0), ("Spanish", 0), ("Italian", 0)] := by
  simp only [languageScores, languagePatterns, List.map]
  rw [englishScore_sample, frenchScore_sample, germanScore_sample, spanishScore_sample,
    italianScore_sample]

set_option maxRecDepth 100000 in
set_option maxHeartbeats 2000000 in
/-- C9: language detection scores the fixed languages by counting
whole-word stop-word matches in the first 1000 characters of the
lowercased text; the first language (in evaluation order) attaining the
highest match count is returned exactly when that count exceeds 3,
otherwise "Unknown"; a 1000-character sample of the words "the", "and",
"of" yields "English", and a sample without stop words yields
"Unknown". -/
theorem C9_language_detection :
    (∀ text : List Char,
      detectLanguage text =
        if 3 < ((languageScores text).map Prod.snd).foldl Nat.max 0 then
          (((languageScores text).find? (fun q =>
              q.2 == ((languageScores text).map Prod.snd).foldl Nat.max 0)).map
            Prod.fst).getD "Unknown"
        else "Unknown") ∧
    (englishSample.length = 1000 ∧ detectLanguage englishSample = "English") ∧
    detectLanguage noStopSample = "Unknown" := by
  refine ⟨?_, ⟨by decide, ?_⟩, ?_⟩
  · intro text
    rw [detectLanguage_eq_selFold]
    have hfst := selFold_fst (languageScores text) 0 "Unknown"
    by_cases hM : 3 < ((languageScores text).map Prod.snd).foldl Nat.max 0
    · rw [if_pos (by rw [hfst]; exact hM), if_pos hM]
      obtain ⟨q0, hf, hs⟩ := selFold_snd_max (languageScores text) 0 "Unknown"
        (Nat.lt_trans (by decide) hM)
      rw [hf, hs]
      rfl
    · rw [if_neg (by rw [hfst]; exact hM), if_neg hM]
  · rw [detectLanguage_eq_selFold, languageScores_englishSample]
    decide
  · decide

end MetaX
